import Mathlib

/-!
Verification development for the WTLang front-end pipeline
(crates/wtlang-core: lexer.rs, parser.rs, ast.rs, symbols.rs, semantics.rs,
ir/types.rs, ir/nodes.rs, ir/module.rs, ir/builder.rs).

The Rust sources are embedded shallowly: pure data types become inductive
types, `&mut self` methods become state-passing functions, `Result` becomes
`Except`, and every recursion that Rust runs on the heap is driven by an
explicit fuel argument (decremented at every recursive call) so that all
definitions are executable and concrete runs reduce by `rfl`/`decide`.

Notes on the embedding:
* ast.rs in the snapshot lags behind parser.rs, builder.rs and ir/nodes.rs
  (those files reference `Statement::Let` with a `type_annotation` field,
  `Statement::Return`, `Statement::Assign`, `Expr::Where`/`SortBy`/
  `ColumnSelect`, `Type::Ref`, `Constraint::Key`, and `BinaryOp::Union`/
  `Minus`/`Intersect`, which ast.rs lacks).  The embedded AST is the union
  actually used by the code, so that parser.rs, semantics.rs and builder.rs
  can all be embedded faithfully against one AST.
* `f64` literal payloads are carried as their source lexeme strings; no
  claim depends on floating-point arithmetic.
* `char::is_alphabetic`/`is_alphanumeric` are modelled on ASCII; every
  input exercised here is ASCII.
* Fields that the builder only ever fills with constant defaults
  (`source_loc: SourceRange::default()`, `target_loc: None`,
  `type_env: HashMap::new()`) are omitted from the embedded IR records,
  as are the never-written `table_keys`/`table_refs` maps of SymbolTable.
-/

namespace WT

/-! ## Diagnostics (errors.rs) -/

/-- Error codes, from errors.rs (only the codes reachable from the embedded
components are listed). -/
inductive ErrorCode where
  | e1001 | e1002 | e1003
  | e2001 | e2002 | e2003 | e2004 | e2011 | e2012
deriving DecidableEq, Repr

/-- Location of a diagnostic (errors.rs `Location`); the `file` field is
always `None` in the embedded code paths and is omitted. -/
structure Location where
  line : Nat
  column : Nat
deriving DecidableEq, Repr

/-- Severity of a diagnostic (errors.rs `Severity`). -/
inductive Severity where
  | error | warning | info | hint
deriving DecidableEq, Repr

/-- A single diagnostic record (errors.rs `Diagnostic`); the optional
source-context snippet is omitted (never set by lexer or parser). -/
structure Diagnostic where
  severity : Severity
  code : ErrorCode
  message : String
  location : Location
deriving DecidableEq, Repr

/-- Build an error diagnostic, as `Diagnostic::error`. -/
def Diagnostic.mkError (code : ErrorCode) (message : String) (location : Location) :
    Diagnostic :=
  { severity := .error, code := code, message := message, location := location }

/-! ## Tokens (lexer.rs `TokenType`, `Token`) -/

/-- Token kinds from lexer.rs.  Lean keywords force some renamings
(`sectionKw` for `Section`, `letKw` for `Let`, `fromKw` for `From`,
`impKw` for `Import`, and so on); payloads follow the source, with the
`f64` of `FloatLiteral` carried as its lexeme. -/
inductive TokenType where
  | page | table | title | subtitle | button | sectionKw | text | letKw
  | function | external | fromKw | impKw | test | mock | assert
  | ifKw | elseKw | forallKw | inKw | returnKw
  | filter | single | multi | whereKw | byKw | asc | desc | key | ref
  | int | float | string | date | currency | bool | number
  | intLiteral (v : Int)
  | floatLiteral (lexeme : String)
  | stringLiteral (s : String)
  | boolLiteral (b : Bool)
  | identifier (name : String)
  | plus | minus | star | slash | percent
  | equals | notEquals | lessThan | lessThanEquals | greaterThan | greaterThanEquals
  | andOp | orOp | notOp | arrow | fatArrow | assign
  | leftParen | rightParen | leftBrace | rightBrace | leftBracket | rightBracket
  | comma | colon | semicolon | dot | underscore
  | eof | newline
deriving Repr

/-- Discriminant of a token kind (the contents of `std::mem::discriminant`):
one index per constructor, payloads ignored. -/
def TokenType.ctorIdx : TokenType → Nat
  | .page => 0 | .table => 1 | .title => 2 | .subtitle => 3 | .button => 4
  | .sectionKw => 5 | .text => 6 | .letKw => 7 | .function => 8 | .external => 9
  | .fromKw => 10 | .impKw => 11 | .test => 12 | .mock => 13 | .assert => 14
  | .ifKw => 15 | .elseKw => 16 | .forallKw => 17 | .inKw => 18 | .returnKw => 19
  | .filter => 20 | .single => 21 | .multi => 22 | .whereKw => 23 | .byKw => 24
  | .asc => 25 | .desc => 26 | .key => 27 | .ref => 28
  | .int => 29 | .float => 30 | .string => 31 | .date => 32 | .currency => 33
  | .bool => 34 | .number => 35
  | .intLiteral _ => 36 | .floatLiteral _ => 37 | .stringLiteral _ => 38
  | .boolLiteral _ => 39 | .identifier _ => 40
  | .plus => 41 | .minus => 42 | .star => 43 | .slash => 44 | .percent => 45
  | .equals => 46 | .notEquals => 47 | .lessThan => 48 | .lessThanEquals => 49
  | .greaterThan => 50 | .greaterThanEquals => 51
  | .andOp => 52 | .orOp => 53 | .notOp => 54 | .arrow => 55 | .fatArrow => 56
  | .assign => 57
  | .leftParen => 58 | .rightParen => 59 | .leftBrace => 60 | .rightBrace => 61
  | .leftBracket => 62 | .rightBracket => 63
  | .comma => 64 | .colon => 65 | .semicolon => 66 | .dot => 67 | .underscore => 68
  | .eof => 69 | .newline => 70

/-- Discriminant equality on token kinds, as used by `Parser::check`
(`std::mem::discriminant` comparison: payloads are ignored). -/
def TokenType.sameKind (a b : TokenType) : Bool :=
  a.ctorIdx = b.ctorIdx

/-- A token with its source position (lexer.rs `Token`). -/
structure Token where
  tokenType : TokenType
  line : Nat
  column : Nat
deriving Repr

/-! ## AST (ast.rs, extended to the union used by parser.rs/builder.rs) -/

/-- AST types (`ast::Type`), including the `Ref` variant produced by
`Parser::parse_type` for `ref TableName`. -/
inductive Ty where
  | int | float | string | date | currency | bool
  | table (name : String)
  | filter
  | ref (name : String)
deriving DecidableEq, Repr

/-- Filter selection mode (`ast::FilterMode`). -/
inductive FilterMode where
  | single | multi
deriving DecidableEq, Repr

/-- Filter literal payload (`ast::FilterDef`). -/
structure FilterDef where
  column : String
  mode : FilterMode
deriving DecidableEq, Repr

/-- Sort column of a `sort by` suffix (`ast::SortColumn`, referenced by
parser.rs). -/
structure SortColumn where
  name : String
  ascending : Bool
deriving DecidableEq, Repr

/-- Binary operators (`ast::BinaryOp`), including the `Union`/`Minus`/
`Intersect` variants matched by builder.rs and ir/nodes.rs. -/
inductive BinaryOp where
  | add | subtract | multiply | divide | modulo
  | equal | notEqual | lessThan | lessThanEqual | greaterThan | greaterThanEqual
  | andOp | orOp
  | union | minus | intersect
deriving DecidableEq, Repr

/-- Unary operators (`ast::UnaryOp`). -/
inductive UnaryOp where
  | notOp | negate
deriving DecidableEq, Repr

/-- Expressions (`ast::Expr`); `FunctionCall { name, args }` is inlined
into the variants that carry it. -/
inductive Expr where
  | intLiteral (v : Int)
  | floatLiteral (lexeme : String)
  | stringLiteral (s : String)
  | boolLiteral (b : Bool)
  | identifier (name : String)
  | functionCall (name : String) (args : List Expr)
  | binaryOp (op : BinaryOp) (left right : Expr)
  | unaryOp (op : UnaryOp) (operand : Expr)
  | lambda (params : List String) (body : Expr)
  | fieldAccess (object : Expr) (field : String)
  | indexExpr (object : Expr) (index : Expr)
  | chain (left right : Expr)
  | tableLiteral (fields : List (String × Expr))
  | arrayLiteral (elements : List Expr)
  | filterLiteral (fd : FilterDef)
  | whereExpr (table : Expr) (condition : Expr)
  | sortBy (table : Expr) (columns : List SortColumn)
  | columnSelect (table : Expr) (columns : List String)
deriving Repr

/-- Field constraints (`ast::Constraint` plus the `Key` variant produced by
the parser and matched by the builder). -/
inductive Constraint where
  | unique | nonNull | key
  | validate (e : Expr)
  | references (table field : String)
deriving Repr

/-- Statements (`ast::Statement`, with the `type_annotation` field of `Let`
used by parser.rs/semantics.rs/builder.rs); `FunctionCall` payload inlined. -/
inductive Statement where
  | title (s : String)
  | subtitle (s : String)
  | text (s : String)
  | button (label : String) (body : List Statement)
  | sectionStmt (stitle : String) (body : List Statement)
  | letStmt (name : String) (tyAnn : Option Ty) (value : Option Expr)
  | assign (name : String) (value : Expr)
  | ifStmt (condition : Expr) (thenBranch : List Statement)
      (elseBranch : Option (List Statement))
  | forallStmt (var : String) (iterable : Expr) (body : List Statement)
  | returnStmt (e : Expr)
  | functionCallStmt (name : String) (args : List Expr)
deriving Repr

/-- Table field (`ast::Field`). -/
structure Field where
  name : String
  fieldType : Ty
  constraints : List Constraint
deriving Repr

/-- Table definition (`ast::TableDef`). -/
structure TableDef where
  name : String
  fields : List Field
deriving Repr

/-- Page (`ast::Page`). -/
structure Page where
  name : String
  statements : List Statement
deriving Repr

/-- Function parameter (`ast::Parameter`). -/
structure Parameter where
  name : String
  paramType : Ty
deriving Repr

/-- Function definition (`ast::FunctionDef`). -/
structure FunctionDef where
  name : String
  params : List Parameter
  returnType : Ty
  body : List Statement
deriving Repr

/-- External function declaration (`ast::ExternalFunction`). -/
structure ExternalFunction where
  name : String
  params : List Parameter
  returnType : Ty
  module : String
deriving Repr

/-- Test block (`ast::Test`). -/
structure Test where
  name : String
  body : List Statement
deriving Repr

/-- Top-level program item (`ast::ProgramItem`). -/
inductive ProgramItem where
  | tableDef (t : TableDef)
  | page (p : Page)
  | functionDef (f : FunctionDef)
  | externalFunction (e : ExternalFunction)
  | test (t : Test)
deriving Repr

/-- A whole program (`ast::Program`). -/
structure Program where
  items : List ProgramItem
deriving Repr

/-! ## Symbol table (symbols.rs) -/

/-- Scope kinds (symbols.rs `ScopeKind`); metadata only. -/
inductive ScopeKind where
  | global | page | sectionScope | button | ifBranch | forallLoop
  | functionBody | testBody
deriving DecidableEq, Repr

/-- Symbol kinds (symbols.rs `SymbolKind`). -/
inductive SymbolKind where
  | variable | parameter | loopVariable | table | function | externalFunction
deriving DecidableEq, Repr

/-- A symbol (symbols.rs `Symbol`). -/
structure Symbol where
  name : String
  symbolType : Ty
  kind : SymbolKind
  isInitialized : Bool
  isMutable : Bool
deriving DecidableEq, Repr

/-- Errors raised by the symbol table (symbols.rs `SymbolError`); only the
variants the embedded code constructs are listed. -/
inductive SymbolError where
  | redefinition (name : String)
  | undefinedVariable (name : String)
deriving DecidableEq, Repr

/-- A lexical scope (symbols.rs `Scope`).  The `HashMap<String, Symbol>` is
modelled as an association list; `Scope::define` checks for the key before
inserting, so keys stay unique.  `parent` carries the full chain by value,
matching the observable behaviour of the `Arc<Scope>` snapshot taken at
`push_scope` time (copy-on-write via `Arc::make_mut`). -/
inductive Scope where
  | mk (parent : Option Scope) (symbols : List (String × Symbol)) (kind : ScopeKind)

/-- Parent accessor for `Scope`. -/
def Scope.parent : Scope → Option Scope
  | .mk p _ _ => p

/-- Symbols map accessor for `Scope`. -/
def Scope.symbols : Scope → List (String × Symbol)
  | .mk _ s _ => s

/-- Kind accessor for `Scope`. -/
def Scope.kind : Scope → ScopeKind
  | .mk _ _ k => k

/-- Association-list membership test (HashMap `contains_key`). -/
def alContains (l : List (String × Symbol)) (name : String) : Bool :=
  l.any (fun p => p.1 = name)

/-- Association-list get (HashMap `get`). -/
def alGet (l : List (String × Symbol)) (name : String) : Option Symbol :=
  (l.find? (fun p => p.1 = name)).map Prod.snd

/-- Association-list in-place update of one key (HashMap `get_mut`). -/
def alUpdate (l : List (String × Symbol)) (name : String) (f : Symbol → Symbol) :
    List (String × Symbol) :=
  l.map (fun p => if p.1 = name then (p.1, f p.2) else p)

/-- `Scope::define`: insert a new symbol, failing with `Redefinition` when
the name is already bound in this exact scope. -/
def Scope.define (sc : Scope) (name : String) (sym : Symbol) :
    Except SymbolError Scope :=
  if alContains sc.symbols name then
    .error (.redefinition name)
  else
    .ok (.mk sc.parent ((name, sym) :: sc.symbols) sc.kind)

/-- `Scope::lookup`: this scope first, then the parent chain. -/
def Scope.lookup : Scope → String → Option Symbol
  | .mk parent symbols _, name =>
    match alGet symbols name with
    | some s => some s
    | none =>
      match parent with
      | some p => p.lookup name
      | none => none

/-- `Scope::lookup_local`: this scope only. -/
def Scope.lookupLocal (sc : Scope) (name : String) : Option Symbol :=
  alGet sc.symbols name

/-- The symbol table (symbols.rs `SymbolTable`): global scope plus the
stack of active scopes.  `currentScopes` is kept innermost-first (the head
is Rust's `last()`); the never-read `table_keys`/`table_refs` maps are
omitted. -/
structure SymbolTable where
  global : Scope
  currentScopes : List Scope

/-- `SymbolTable::new`. -/
def SymbolTable.new : SymbolTable :=
  { global := .mk none [] .global, currentScopes := [] }

/-- `SymbolTable::current_scope`: top of the stack, or global. -/
def SymbolTable.currentScope (st : SymbolTable) : Scope :=
  st.currentScopes.headD st.global

/-- `SymbolTable::push_scope`: new scope parented to the current scope. -/
def SymbolTable.pushScope (st : SymbolTable) (kind : ScopeKind) : SymbolTable :=
  { st with currentScopes := .mk (some st.currentScope) [] kind :: st.currentScopes }

/-- `SymbolTable::pop_scope`. -/
def SymbolTable.popScope (st : SymbolTable) : SymbolTable :=
  { st with currentScopes := st.currentScopes.tail }

/-- `SymbolTable::define`: define in the innermost active scope, or in the
global scope when no scope is active. -/
def SymbolTable.define (st : SymbolTable) (name : String) (sym : Symbol) :
    Except SymbolError SymbolTable :=
  match st.currentScopes with
  | [] =>
    match st.global.define name sym with
    | .error e => .error e
    | .ok g => .ok { st with global := g }
  | top :: rest =>
    match top.define name sym with
    | .error e => .error e
    | .ok top' => .ok { st with currentScopes := top' :: rest }

/-- `SymbolTable::lookup`: from the current scope through its parents. -/
def SymbolTable.lookup (st : SymbolTable) (name : String) : Option Symbol :=
  st.currentScope.lookup name

/-- One step of `SymbolTable::mark_initialized`: update the first active
scope (innermost first) whose local map binds the name. -/
def markInitializedScopes (scopes : List Scope) (name : String) :
    Option (List Scope) :=
  match scopes with
  | [] => none
  | sc :: rest =>
    if (sc.lookupLocal name).isSome then
      some (.mk sc.parent (alUpdate sc.symbols name
        (fun s => { s with isInitialized := true })) sc.kind :: rest)
    else
      match markInitializedScopes rest name with
      | some rest' => some (sc :: rest')
      | none => none

/-- `SymbolTable::mark_initialized`: active scopes innermost-out, then the
global scope; `UndefinedVariable` when no scope binds the name. -/
def SymbolTable.markInitialized (st : SymbolTable) (name : String) :
    Except SymbolError SymbolTable :=
  match markInitializedScopes st.currentScopes name with
  | some scopes' => .ok { st with currentScopes := scopes' }
  | none =>
    if (st.global.lookupLocal name).isSome then
      let g := Scope.mk st.global.parent
        (alUpdate st.global.symbols name (fun s => { s with isInitialized := true }))
        st.global.kind
      .ok { st with global := g }
    else
      .error (.undefinedVariable name)

/-! ## Semantic analysis (semantics.rs) -/

/-- Semantic errors (semantics.rs `SemanticError`); `TypeMismatch` carries
the `format!` (Debug) renderings of the two types, as in the source. -/
inductive SemanticError where
  | undefinedVariable (name : String)
  | redefinition (name : String)
  | typeMismatch (expected found : String)
  | uninitializedVariable (name : String)
  | missingTypeOrInitializer (name : String)
deriving DecidableEq, Repr

/-- Debug rendering of an AST type, mirroring Rust's derived
`format!` output for `ast::Type`. -/
def reprTy : Ty → String
  | .int => "Int"
  | .float => "Float"
  | .string => "String"
  | .date => "Date"
  | .currency => "Currency"
  | .bool => "Bool"
  | .table n => "Table(\"" ++ n ++ "\")"
  | .filter => "Filter"
  | .ref n => "Ref(\"" ++ n ++ "\")"

/-- Analyzer state (the `symbols` and `errors` fields of
`SemanticAnalyzer`). -/
structure SemState where
  symbols : SymbolTable
  errors : List SemanticError

/-- Append one error (`self.errors.push(..)`). -/
def SemState.pushErr (s : SemState) (e : SemanticError) : SemState :=
  { s with errors := s.errors ++ [e] }

/-- Define a symbol, converting a failed `SymbolTable::define` into a
`SemanticError::Redefinition` push, the pattern used at every define site
in semantics.rs. -/
def SemState.defineSym (s : SemState) (name : String) (sym : Symbol) : SemState :=
  match s.symbols.define name sym with
  | .ok st' => { s with symbols := st' }
  | .error _ => s.pushErr (.redefinition name)

/-- `SemanticAnalyzer::infer_expr_type`: shallow inference (literals map to
their primitive type; identifiers and calls to the symbol's declared type,
defaulting to `Int`; everything else defaults to `Int`). -/
def inferExprType (s : SemState) : Expr → Ty
  | .intLiteral _ => .int
  | .floatLiteral _ => .float
  | .stringLiteral _ => .string
  | .boolLiteral _ => .bool
  | .identifier name => ((s.symbols.lookup name).map Symbol.symbolType).getD .int
  | .functionCall name _ => ((s.symbols.lookup name).map Symbol.symbolType).getD .int
  | _ => .int

/-- `SemanticAnalyzer::get_element_type` (deliberately shallow: a table
iterates as itself, everything else as `Int`). -/
def getElementType : Ty → Ty
  | .table n => .table n
  | _ => .int

/-- `SemanticAnalyzer::types_compatible`: structural equality. -/
def typesCompatible (t1 t2 : Ty) : Bool :=
  t1 = t2

mutual

/-- `SemanticAnalyzer::check_expression`. -/
def checkExpr (s : SemState) : Expr → SemState
  | .identifier name =>
    (match s.symbols.lookup name with
    | some sym =>
      if !sym.isInitialized then s.pushErr (.uninitializedVariable name) else s
    | none => s.pushErr (.undefinedVariable name))
  | .functionCall name args => checkCall s name args
  | .binaryOp _ l r => checkExpr (checkExpr s l) r
  | .unaryOp _ operand => checkExpr s operand
  | .lambda _ body => checkExpr s body
  | .fieldAccess object _ => checkExpr s object
  | .indexExpr object ix => checkExpr (checkExpr s object) ix
  | .chain l r => checkExpr (checkExpr s l) r
  | .arrayLiteral items => checkExprs s items
  | _ => s

/-- Check a list of expressions in order (the `for` loop over array
items). -/
def checkExprs (s : SemState) : List Expr → SemState
  | [] => s
  | e :: rest => checkExprs (checkExpr s e) rest

/-- `SemanticAnalyzer::check_function_call`: an unknown callee is allowed
("might be a builtin"), only the arguments are checked, in order. -/
def checkCall (s : SemState) (name : String) : List Expr → SemState
  | [] => s
  | arg :: rest => checkCall (checkExpr s arg) name rest

end

mutual

/-- `SemanticAnalyzer::check_statement`. -/
def checkStmt (s : SemState) : Statement → SemState
  | .letStmt name tyAnn value =>
    let st :=
      match value, tyAnn with
      | some v, _ => (s, inferExprType s v)
      | none, some t => (s, t)
      | none, none => (s.pushErr (.missingTypeOrInitializer name), Ty.int)
    let s := st.1
    let symbolType := st.2
    let s := s.defineSym name
      { name := name, symbolType := symbolType, kind := .variable,
        isInitialized := value.isSome, isMutable := false }
    (match tyAnn, value with
    | some expectedType, some v =>
      let inferredType := inferExprType s v
      if !typesCompatible expectedType inferredType then
        s.pushErr (.typeMismatch (reprTy expectedType) (reprTy inferredType))
      else s
    | _, _ => s)
  | .assign name value =>
    let s :=
      match s.symbols.lookup name with
      | some sym =>
        let valueType := inferExprType s value
        let s :=
          if !typesCompatible sym.symbolType valueType then
            s.pushErr (.typeMismatch (reprTy sym.symbolType) (reprTy valueType))
          else s
        (match s.symbols.markInitialized name with
        | .ok st' => { s with symbols := st' }
        | .error _ => s)
      | none => s.pushErr (.undefinedVariable name)
    checkExpr s value
  | .sectionStmt _ body =>
    let s := { s with symbols := s.symbols.pushScope .sectionScope }
    let s := checkStmts s body
    { s with symbols := s.symbols.popScope }
  | .button _ body =>
    let s := { s with symbols := s.symbols.pushScope .button }
    let s := checkStmts s body
    { s with symbols := s.symbols.popScope }
  | .ifStmt condition thenBranch elseBranch =>
    let s := checkExpr s condition
    let s := { s with symbols := s.symbols.pushScope .ifBranch }
    let s := checkStmts s thenBranch
    let s := { s with symbols := s.symbols.popScope }
    (match elseBranch with
    | some elseStmts =>
      let s := { s with symbols := s.symbols.pushScope .ifBranch }
      let s := checkStmts s elseStmts
      { s with symbols := s.symbols.popScope }
    | none => s)
  | .forallStmt var iterable body =>
    let s := checkExpr s iterable
    let iterType := inferExprType s iterable
    let elemType := getElementType iterType
    let s := { s with symbols := s.symbols.pushScope .forallLoop }
    let s := s.defineSym var
      { name := var, symbolType := elemType, kind := .loopVariable,
        isInitialized := true, isMutable := false }
    let s := checkStmts s body
    { s with symbols := s.symbols.popScope }
  | .returnStmt e => checkExpr s e
  | .functionCallStmt name args => checkCall s name args
  | _ => s

/-- Check a list of statements in order. -/
def checkStmts (s : SemState) : List Statement → SemState
  | [] => s
  | stmt :: rest => checkStmts (checkStmt s stmt) rest

end

/-- `SemanticAnalyzer::define_table`. -/
def defineTable (s : SemState) (t : TableDef) : SemState :=
  s.defineSym t.name
    { name := t.name, symbolType := .table t.name, kind := .table,
      isInitialized := true, isMutable := false }

/-- `SemanticAnalyzer::define_function_signature`. -/
def defineFunctionSignature (s : SemState) (f : FunctionDef) : SemState :=
  s.defineSym f.name
    { name := f.name, symbolType := f.returnType, kind := .function,
      isInitialized := true, isMutable := false }

/-- `SemanticAnalyzer::define_external_function`. -/
def defineExternalFunction (s : SemState) (e : ExternalFunction) : SemState :=
  s.defineSym e.name
    { name := e.name, symbolType := e.returnType, kind := .externalFunction,
      isInitialized := true, isMutable := false }

/-- `SemanticAnalyzer::check_function_body`: function scope, parameters
bound as initialized, body checked, scope popped. -/
def checkFunctionBody (s : SemState) (f : FunctionDef) : SemState :=
  let s := { s with symbols := s.symbols.pushScope .functionBody }
  let s := f.params.foldl (fun s p =>
    s.defineSym p.name
      { name := p.name, symbolType := p.paramType, kind := .parameter,
        isInitialized := true, isMutable := false }) s
  let s := checkStmts s f.body
  { s with symbols := s.symbols.popScope }

/-- `SemanticAnalyzer::check_page`. -/
def checkPage (s : SemState) (pg : Page) : SemState :=
  let s := { s with symbols := s.symbols.pushScope .page }
  let s := checkStmts s pg.statements
  { s with symbols := s.symbols.popScope }

/-- `SemanticAnalyzer::check_test`. -/
def checkTest (s : SemState) (t : Test) : SemState :=
  let s := { s with symbols := s.symbols.pushScope .testBody }
  let s := checkStmts s t.body
  { s with symbols := s.symbols.popScope }

/-- The three passes of `SemanticAnalyzer::analyze`, returning the final
analyzer state. -/
def analyzeState (p : Program) : SemState :=
  let s0 : SemState := { symbols := SymbolTable.new, errors := [] }
  let s1 := p.items.foldl (fun s item =>
    match item with
    | .tableDef t => defineTable s t
    | .functionDef f => defineFunctionSignature s f
    | .externalFunction e => defineExternalFunction s e
    | _ => s) s0
  let s2 := p.items.foldl (fun s item =>
    match item with
    | .functionDef f => checkFunctionBody s f
    | _ => s) s1
  p.items.foldl (fun s item =>
    match item with
    | .page pg => checkPage s pg
    | .test t => checkTest s t
    | _ => s) s2

/-- `SemanticAnalyzer::analyze`: `Ok` exactly when no error was recorded. -/
def analyze (p : Program) : Except (List SemanticError) Unit :=
  let s := analyzeState p
  if s.errors.isEmpty then .ok () else .error s.errors

/-! ## IR type system (ir/types.rs) -/

/-- Field types of a resolved table schema (ir/types.rs `FieldType`,
plus the `Ref` variant matched by builder.rs `check_ref_field` /
`infer_field_access_type`). -/
inductive IRFieldType where
  | int | float | string | bool | date | currency
  | ref (tableName : String)
deriving DecidableEq, Repr

/-- Field of a resolved schema (ir/types.rs `Field`). -/
structure IRField where
  name : String
  ty : IRFieldType
deriving DecidableEq, Repr

/-- Schema constraints (ir/types.rs `Constraint`), each carrying the
constrained field name. -/
inductive IRConstraint where
  | unique (fieldName : String)
  | nonNull (fieldName : String)
  | primaryKey (fieldName : String)
deriving DecidableEq, Repr

/-- Resolved table schema (ir/types.rs `TableSchema`). -/
structure IRTableSchema where
  name : String
  fields : List IRField
  constraints : List IRConstraint
deriving DecidableEq, Repr

/-- `TableSchema::new`. -/
def IRTableSchema.new (name : String) : IRTableSchema :=
  { name := name, fields := [], constraints := [] }

/-- `TableSchema::get_field`. -/
def IRTableSchema.getField (schema : IRTableSchema) (fieldName : String) :
    Option IRField :=
  schema.fields.find? (fun f => f.name = fieldName)

/-- `TableSchema::get_field_type`. -/
def IRTableSchema.getFieldType (schema : IRTableSchema) (fieldName : String) :
    Option IRFieldType :=
  (schema.getField fieldName).map IRField.ty

/-- Fully resolved IR types (ir/types.rs `Type`). -/
inductive IRType where
  | int | float | string | bool | date | currency
  | table (schema : IRTableSchema)
  | filter (tableName : String) (mode : FilterMode)
  | function (params : List IRType) (returnType : IRType)
  | unit
  | error

/-- `Type::is_numeric`. -/
def IRType.isNumeric : IRType → Bool
  | .int | .float | .currency => true
  | _ => false

/-- `Type::is_table`. -/
def IRType.isTable : IRType → Bool
  | .table _ => true
  | _ => false

/-- `Type::as_table`. -/
def IRType.asTable : IRType → Option IRTableSchema
  | .table schema => some schema
  | _ => none

/-- Conversion from an AST type (`impl From<&ast::Type> for Type` in
ir/types.rs): a table annotation becomes a placeholder schema with the
table's name and no fields; `Filter` maps to `Error`.  The snapshot's
`From` impl predates `ast::Type::Ref`, which is therefore mapped to
`Error` as well (no embedded claim exercises it). -/
def typeFromAst : Ty → IRType
  | .int => .int
  | .float => .float
  | .string => .string
  | .bool => .bool
  | .date => .date
  | .currency => .currency
  | .filter => .error
  | .table name => .table (IRTableSchema.new name)
  | .ref _ => .error

/-- Conversion from an AST type to a field type (`impl From<&ast::Type>
for FieldType`); the source panics on non-primitive types, modelled as
`none`. -/
def fieldTypeFromAst : Ty → Option IRFieldType
  | .int => some .int
  | .float => some .float
  | .string => some .string
  | .bool => some .bool
  | .date => some .date
  | .currency => some .currency
  | _ => none

/-! ## IR nodes (ir/nodes.rs) -/

/-- Literal values (ir/nodes.rs `Literal`); the `f64` payload is carried
as its lexeme. -/
inductive IRLiteral where
  | int (v : Int)
  | float (lexeme : String)
  | string (s : String)
  | bool (b : Bool)
deriving DecidableEq, Repr

/-- Binary operators of the IR (ir/nodes.rs `BinOp`). -/
inductive BinOp where
  | add | sub | mul | div | mod
  | eq | ne | lt | le | gt | ge
  | andB | orB
  | union | setMinus | intersect
deriving DecidableEq, Repr

/-- Unary operators of the IR (ir/nodes.rs `UnOp`). -/
inductive UnOp where
  | neg | notU
deriving DecidableEq, Repr

/-- `impl From<&ast::BinaryOp> for BinOp` (ir/nodes.rs): note that the AST
`Subtract` maps to arithmetic `Sub` while the AST `Minus` maps to
`SetMinus`. -/
def BinOp.fromAst : BinaryOp → BinOp
  | .add => .add
  | .subtract => .sub
  | .multiply => .mul
  | .divide => .div
  | .modulo => .mod
  | .equal => .eq
  | .notEqual => .ne
  | .lessThan => .lt
  | .lessThanEqual => .le
  | .greaterThan => .gt
  | .greaterThanEqual => .ge
  | .andOp => .andB
  | .orOp => .orB
  | .union => .union
  | .minus => .setMinus
  | .intersect => .intersect

/-- `impl From<&ast::UnaryOp> for UnOp` (ir/nodes.rs). -/
def UnOp.fromAst : UnaryOp → UnOp
  | .notOp => .notU
  | .negate => .neg

/-- Sort specification (ir/nodes.rs `SortSpec`). -/
structure SortSpec where
  column : String
  ascending : Bool
deriving DecidableEq, Repr

/-- Filter specification (ir/nodes.rs `FilterSpec`). -/
structure FilterSpec where
  column : String
  mode : FilterMode
deriving DecidableEq, Repr

/-- Text style (ir/nodes.rs `TextStyle`). -/
inductive TextStyle where
  | title | subtitle | normal
deriving DecidableEq, Repr

/-- IR expressions (ir/nodes.rs `IRExpr`), each carrying its resolved
type. -/
inductive IRExpr where
  | literal (value : IRLiteral) (ty : IRType)
  | var (name : String) (ty : IRType)
  | binaryOp (op : BinOp) (left right : IRExpr) (ty : IRType)
  | unaryOp (op : UnOp) (operand : IRExpr) (ty : IRType)
  | functionCall (function : String) (args : List IRExpr) (ty : IRType)
  | fieldAccess (object : IRExpr) (field : String) (ty : IRType)
  | indexExpr (object : IRExpr) (index : IRExpr) (ty : IRType)
  | chain (left right : IRExpr) (ty : IRType)
  | tableConstructor (fields : List (String × IRExpr)) (ty : IRType)
  | arrayConstructor (elements : List IRExpr) (ty : IRType)
  | lambda (params : List String) (body : IRExpr) (ty : IRType)
  | whereOp (table : IRExpr) (condition : IRExpr) (ty : IRType)
  | sortBy (table : IRExpr) (columns : List SortSpec) (ty : IRType)
  | columnSelect (table : IRExpr) (columns : List String) (ty : IRType)
  | union (left right : IRExpr) (ty : IRType)
  | minus (left right : IRExpr) (ty : IRType)
  | intersect (left right : IRExpr) (ty : IRType)
  | refNavigation (object : IRExpr) (field : String) (targetTable : String)
      (ty : IRType)

/-- `IRExpr::get_type`. -/
def IRExpr.getType : IRExpr → IRType
  | .literal _ ty => ty
  | .var _ ty => ty
  | .binaryOp _ _ _ ty => ty
  | .unaryOp _ _ ty => ty
  | .functionCall _ _ ty => ty
  | .fieldAccess _ _ ty => ty
  | .indexExpr _ _ ty => ty
  | .chain _ _ ty => ty
  | .tableConstructor _ ty => ty
  | .arrayConstructor _ ty => ty
  | .lambda _ _ ty => ty
  | .whereOp _ _ ty => ty
  | .sortBy _ _ ty => ty
  | .columnSelect _ _ ty => ty
  | .union _ _ ty => ty
  | .minus _ _ ty => ty
  | .intersect _ _ ty => ty
  | .refNavigation _ _ _ ty => ty

/-- IR statements (ir/nodes.rs `IRNode`); the `source_loc`/`target_loc`
fields, always filled with defaults by the builder, are omitted.  Note
`ShowTable` and its `key` field: the node the builder is expected to emit
for `show`/`show_editable` calls. -/
inductive IRNode where
  | showTable (table : IRExpr) (filters : List FilterSpec) (editable : Bool)
      (key : String)
  | showText (text : String) (style : TextStyle)
  | button (label : String) (body : List IRNode)
  | sectionNode (stitle : String) (body : List IRNode)
  | conditional (condition : IRExpr) (thenBranch : List IRNode)
      (elseBranch : Option (List IRNode))
  | loop (loopVar : String) (iterable : IRExpr) (body : List IRNode)
  | binding (name : String) (ty : IRType) (value : Option IRExpr)
  | assignment (target : String) (value : IRExpr)
  | exprStmt (expr : IRExpr)
  | returnNode (value : Option IRExpr)

/-- Function parameter of the IR (ir/nodes.rs `Param`). -/
structure IRParam where
  name : String
  ty : IRType

/-- External-function info (ir/nodes.rs `ExternalInfo`). -/
structure ExternalInfo where
  language : String
  module : String
deriving DecidableEq, Repr

/-- Top-level IR items (ir/nodes.rs `IRItem`). -/
inductive IRItem where
  | tableDef (name : String) (schema : IRTableSchema)
  | functionDef (name : String) (params : List IRParam) (returnType : IRType)
      (body : List IRNode) (isExternal : Bool) (externalInfo : Option ExternalInfo)
  | pageDef (name : String) (body : List IRNode)
  | testDef (name : String) (body : List IRNode)

/-- The IR module (ir/module.rs `IRModule`); the always-empty `type_env`
is omitted. -/
structure IRModule where
  name : String
  items : List IRItem
  symbols : SymbolTable

/-! ## IR builder (ir/builder.rs) -/

/-- Builder state: the fields of `IRBuilder` that change during lowering
(`current_file` is constant and only feeds the module name). -/
structure BuildState where
  symbolTable : SymbolTable
  keyCounter : Nat
  localVars : List (String × IRType)

/-- HashMap `insert` on the local-variable map (later inserts shadow
earlier ones for lookup). -/
def lvInsert (l : List (String × IRType)) (name : String) (ty : IRType) :
    List (String × IRType) :=
  (name, ty) :: l

/-- HashMap `get` on the local-variable map. -/
def lvGet (l : List (String × IRType)) (name : String) : Option IRType :=
  (l.find? (fun p => p.1 = name)).map Prod.snd

/-- `IRBuilder::ast_type_to_ir_type`. -/
def astTypeToIrType (t : Ty) : IRType :=
  typeFromAst t

/-- `IRBuilder::lookup_variable_type`: local variables first, then the
resolved global symbol table. -/
def lookupVariableType (bst : BuildState) (name : String) :
    Except String IRType :=
  match lvGet bst.localVars name with
  | some ty => .ok ty
  | none =>
    match bst.symbolTable.lookup name with
    | some sym => .ok (astTypeToIrType sym.symbolType)
    | none => .error ("Variable '" ++ name ++ "' not found")

/-- `IRBuilder::lookup_function_return_type`: unknown functions default to
`Unit`. -/
def lookupFunctionReturnType (bst : BuildState) (name : String) :
    Except String IRType :=
  match bst.symbolTable.lookup name with
  | some sym => .ok (astTypeToIrType sym.symbolType)
  | none => .ok .unit

/-- `IRBuilder::infer_binary_op_type`: arithmetic requires numeric
operands (else `Error`); comparisons and logic yield `Bool`; set
operations return the left operand's type. -/
def inferBinaryOpType (op : BinaryOp) (leftTy rightTy : IRType) :
    Except String IRType :=
  match op with
  | .add | .subtract | .multiply | .divide | .modulo =>
    if leftTy.isNumeric && rightTy.isNumeric then .ok leftTy else .ok .error
  | .equal | .notEqual | .lessThan | .lessThanEqual
  | .greaterThan | .greaterThanEqual => .ok .bool
  | .andOp | .orOp => .ok .bool
  | .union | .minus | .intersect => .ok leftTy

/-- `IRBuilder::infer_field_access_type`. -/
def inferFieldAccessType (bst : BuildState) (objectTy : IRType)
    (field : String) : Except String IRType :=
  match objectTy.asTable with
  | some schema =>
    (match schema.getFieldType field with
    | some fieldType =>
      .ok (match fieldType with
        | .int => IRType.int
        | .float => IRType.float
        | .string => IRType.string
        | .bool => IRType.bool
        | .date => IRType.date
        | .currency => IRType.currency
        | .ref tableName =>
          match bst.symbolTable.lookup tableName with
          | some targetSymbol => astTypeToIrType targetSymbol.symbolType
          | none => IRType.error)
    | none => .error ("Field '" ++ field ++ "' not found in table"))
  | none => .ok .error

/-- `IRBuilder::infer_index_type` (deliberately simplified to `Error`). -/
def inferIndexType (_objectTy : IRType) : Except String IRType :=
  .ok .error

/-- Result of `IRBuilder::check_ref_field` (`RefInfo`). -/
structure RefInfo where
  targetTable : String
  targetSchema : IRTableSchema

/-- `IRBuilder::check_ref_field`: is the field a foreign-key reference
whose target resolves to a table? -/
def checkRefField (bst : BuildState) (objectTy : IRType) (field : String) :
    Option RefInfo :=
  match objectTy.asTable with
  | some schema =>
    (match schema.fields.find? (fun f => f.name = field) with
    | some fieldDef =>
      (match fieldDef.ty with
      | .ref tableName =>
        (match bst.symbolTable.lookup tableName with
        | some targetSymbol =>
          (match astTypeToIrType targetSymbol.symbolType with
          | .table targetSchema =>
            some { targetTable := tableName, targetSchema := targetSchema }
          | _ => none)
        | none => none)
      | _ => none)
    | none => none)
  | none => none

/-- `IRBuilder::infer_expr_type` (shallow; used for un-annotated `let`). -/
def inferExprTypeB (bst : BuildState) : Expr → Except String IRType
  | .intLiteral _ => .ok .int
  | .floatLiteral _ => .ok .float
  | .stringLiteral _ => .ok .string
  | .boolLiteral _ => .ok .bool
  | .identifier name => lookupVariableType bst name
  | _ => .ok .error

/-- The tail of `IRBuilder::lower_function_call` after the arguments have
been lowered: the dispatch on the callee name.  For `show`/`show_editable`
the key counter is incremented and a plain `FunctionCall` expression of
type `Unit` is returned (the lowered arguments are passed through; no key
is attached to the produced node). -/
def finishFunctionCall (bst : BuildState) (name : String)
    (args : List IRExpr) : Except String (IRExpr × BuildState) :=
  if name = "show" || name = "show_editable" then
    if args.isEmpty then
      .error "show requires at least a table argument"
    else
      let editable := name = "show_editable"
      let bst := { bst with keyCounter := bst.keyCounter + 1 }
      .ok (.functionCall (if editable then "show_editable" else "show") args .unit,
        bst)
  else if name = "load_csv" then
    .ok (.functionCall name args .error, bst)
  else if name = "save_csv" then
    .ok (.functionCall name args .unit, bst)
  else if name = "where" || name = "sort" || name = "aggregate" then
    let ty := match args.head? with
      | some a => a.getType
      | none => IRType.error
    .ok (.functionCall name args ty, bst)
  else
    match lookupFunctionReturnType bst name with
    | .error e => .error e
    | .ok ty => .ok (.functionCall name args ty, bst)

mutual

/-- `IRBuilder::lower_expr`. -/
def lowerExpr : BuildState → Expr → Except String (IRExpr × BuildState)
  | bst, .intLiteral v => .ok (.literal (.int v) .int, bst)
  | bst, .floatLiteral lex => .ok (.literal (.float lex) .float, bst)
  | bst, .stringLiteral s => .ok (.literal (.string s) .string, bst)
  | bst, .boolLiteral b => .ok (.literal (.bool b) .bool, bst)
  | bst, .identifier name =>
    if name = "_" then
      .ok (.var "_" .error, bst)
    else
      (match lookupVariableType bst name with
      | .error e => .error e
      | .ok ty => .ok (.var name ty, bst))
  | bst, .functionCall name args =>
    (match lowerExprs bst args with
    | .error e => .error e
    | .ok (argsIR, bst) => finishFunctionCall bst name argsIR)
  | bst, .binaryOp op l r =>
    (match lowerExpr bst l with
    | .error e => .error e
    | .ok (leftIR, bst) =>
      match lowerExpr bst r with
      | .error e => .error e
      | .ok (rightIR, bst) =>
        match op with
        | .union =>
          .ok (.union leftIR rightIR leftIR.getType, bst)
        | .minus =>
          if leftIR.getType.isTable then
            .ok (.minus leftIR rightIR leftIR.getType, bst)
          else
            (match inferBinaryOpType op leftIR.getType rightIR.getType with
            | .error e => .error e
            | .ok ty => .ok (.binaryOp (BinOp.fromAst op) leftIR rightIR ty, bst))
        | .intersect =>
          .ok (.intersect leftIR rightIR leftIR.getType, bst)
        | _ =>
          (match inferBinaryOpType op leftIR.getType rightIR.getType with
          | .error e => .error e
          | .ok ty => .ok (.binaryOp (BinOp.fromAst op) leftIR rightIR ty, bst)))
  | bst, .unaryOp op operand =>
    (match lowerExpr bst operand with
    | .error e => .error e
    | .ok (operandIR, bst) =>
      .ok (.unaryOp (UnOp.fromAst op) operandIR operandIR.getType, bst))
  | bst, .fieldAccess object field =>
    (match lowerExpr bst object with
    | .error e => .error e
    | .ok (objectIR, bst) =>
      match checkRefField bst objectIR.getType field with
      | some refInfo =>
        .ok (.refNavigation objectIR field refInfo.targetTable
          (.table refInfo.targetSchema), bst)
      | none =>
        match inferFieldAccessType bst objectIR.getType field with
        | .error e => .error e
        | .ok ty => .ok (.fieldAccess objectIR field ty, bst))
  | bst, .indexExpr object index =>
    (match lowerExpr bst object with
    | .error e => .error e
    | .ok (objectIR, bst) =>
      match lowerExpr bst index with
      | .error e => .error e
      | .ok (indexIR, bst) =>
        match inferIndexType objectIR.getType with
        | .error e => .error e
        | .ok ty => .ok (.indexExpr objectIR indexIR ty, bst))
  | bst, .chain l r =>
    (match lowerExpr bst l with
    | .error e => .error e
    | .ok (leftIR, bst) =>
      match lowerExpr bst r with
      | .error e => .error e
      | .ok (rightIR, bst) => .ok (.chain leftIR rightIR rightIR.getType, bst))
  | bst, .tableLiteral fields =>
    (match lowerPairs bst fields with
    | .error e => .error e
    | .ok (fieldsIR, bst) => .ok (.tableConstructor fieldsIR .error, bst))
  | bst, .arrayLiteral elements =>
    (match lowerExprs bst elements with
    | .error e => .error e
    | .ok (elementsIR, bst) => .ok (.arrayConstructor elementsIR .error, bst))
  | bst, .lambda params body =>
    (match lowerExpr bst body with
    | .error e => .error e
    | .ok (bodyIR, bst) =>
      .ok (.lambda params bodyIR
        (.function (params.map (fun _ => IRType.error)) bodyIR.getType), bst))
  | bst, .filterLiteral fd =>
    .ok (.literal (.string fd.column) .error, bst)
  | bst, .whereExpr table condition =>
    (match lowerExpr bst table with
    | .error e => .error e
    | .ok (tableIR, bst) =>
      match lowerExpr bst condition with
      | .error e => .error e
      | .ok (conditionIR, bst) =>
        .ok (.whereOp tableIR conditionIR tableIR.getType, bst))
  | bst, .sortBy table columns =>
    (match lowerExpr bst table with
    | .error e => .error e
    | .ok (tableIR, bst) =>
      let sortSpecs := columns.map (fun c =>
        SortSpec.mk c.name c.ascending)
      .ok (.sortBy tableIR sortSpecs tableIR.getType, bst))
  | bst, .columnSelect table columns =>
    (match lowerExpr bst table with
    | .error e => .error e
    | .ok (tableIR, bst) =>
      .ok (.columnSelect tableIR columns tableIR.getType, bst))

/-- Lower a list of expressions left to right (argument/element loops). -/
def lowerExprs : BuildState → List Expr →
    Except String (List IRExpr × BuildState)
  | bst, [] => .ok ([], bst)
  | bst, e :: rest =>
    (match lowerExpr bst e with
    | .error err => .error err
    | .ok (eIR, bst) =>
      match lowerExprs bst rest with
      | .error err => .error err
      | .ok (restIR, bst) => .ok (eIR :: restIR, bst))

/-- Lower the named fields of a table literal left to right. -/
def lowerPairs : BuildState → List (String × Expr) →
    Except String (List (String × IRExpr) × BuildState)
  | bst, [] => .ok ([], bst)
  | bst, (name, e) :: rest =>
    (match lowerExpr bst e with
    | .error err => .error err
    | .ok (eIR, bst) =>
      match lowerPairs bst rest with
      | .error err => .error err
      | .ok (restIR, bst) => .ok ((name, eIR) :: restIR, bst))

end

/-- `IRBuilder::lower_function_call`: lower the arguments, then dispatch
on the callee name (`finishFunctionCall`). -/
def lowerFunctionCall (bst : BuildState) (name : String) (args : List Expr) :
    Except String (IRExpr × BuildState) :=
  match lowerExprs bst args with
  | .error e => .error e
  | .ok (argsIR, bst) => finishFunctionCall bst name argsIR

mutual

/-- `IRBuilder::lower_statement`. -/
def lowerStmt : BuildState → Statement → Except String (IRNode × BuildState)
  | bst, .title s => .ok (.showText s .title, bst)
  | bst, .subtitle s => .ok (.showText s .subtitle, bst)
  | bst, .text s => .ok (.showText s .normal, bst)
  | bst, .button label body =>
    (match lowerStmts bst body with
    | .error e => .error e
    | .ok (bodyIR, bst) => .ok (.button label bodyIR, bst))
  | bst, .sectionStmt stitle body =>
    (match lowerStmts bst body with
    | .error e => .error e
    | .ok (bodyIR, bst) => .ok (.sectionNode stitle bodyIR, bst))
  | bst, .letStmt name tyAnn value =>
    (match
      (match tyAnn with
      | some typeAnn => .ok (typeFromAst typeAnn)
      | none =>
        match value with
        | some valExpr => inferExprTypeB bst valExpr
        | none =>
          .error ("Variable '" ++ name ++
            "' requires either type annotation or initial value") :
        Except String IRType) with
    | .error e => .error e
    | .ok ty =>
      match
        (match value with
        | some valExpr =>
          (match lowerExpr bst valExpr with
          | .error e => .error e
          | .ok (vIR, bst) => .ok (some vIR, bst))
        | none => .ok (none, bst) :
          Except String (Option IRExpr × BuildState)) with
      | .error e => .error e
      | .ok (irValue, bst) =>
        let bst := { bst with localVars := lvInsert bst.localVars name ty }
        .ok (.binding name ty irValue, bst))
  | bst, .assign name value =>
    (match lowerExpr bst value with
    | .error e => .error e
    | .ok (vIR, bst) => .ok (.assignment name vIR, bst))
  | bst, .ifStmt condition thenBranch elseBranch =>
    (match lowerExpr bst condition with
    | .error e => .error e
    | .ok (condIR, bst) =>
      match lowerStmts bst thenBranch with
      | .error e => .error e
      | .ok (thenIR, bst) =>
        match elseBranch with
        | some elseStmts =>
          (match lowerStmts bst elseStmts with
          | .error e => .error e
          | .ok (elseIR, bst) =>
            .ok (.conditional condIR thenIR (some elseIR), bst))
        | none => .ok (.conditional condIR thenIR none, bst))
  | bst, .forallStmt var iterable body =>
    (match lowerExpr bst iterable with
    | .error e => .error e
    | .ok (iterIR, bst) =>
      match lowerStmts bst body with
      | .error e => .error e
      | .ok (bodyIR, bst) => .ok (.loop var iterIR bodyIR, bst))
  | bst, .returnStmt e =>
    (match lowerExpr bst e with
    | .error err => .error err
    | .ok (eIR, bst) => .ok (.returnNode (some eIR), bst))
  | bst, .functionCallStmt name args =>
    (match lowerFunctionCall bst name args with
    | .error e => .error e
    | .ok (exprIR, bst) => .ok (.exprStmt exprIR, bst))

/-- `IRBuilder::lower_statements`. -/
def lowerStmts : BuildState → List Statement →
    Except String (List IRNode × BuildState)
  | bst, [] => .ok ([], bst)
  | bst, stmt :: rest =>
    (match lowerStmt bst stmt with
    | .error e => .error e
    | .ok (nodeIR, bst) =>
      match lowerStmts bst rest with
      | .error e => .error e
      | .ok (restIR, bst) => .ok (nodeIR :: restIR, bst))

end

/-- Lower the constraints of one field into schema constraints
(`Validate`/`References` are skipped, "not yet fully supported"). -/
def lowerFieldConstraints (fieldName : String) (cs : List Constraint) :
    List IRConstraint :=
  cs.filterMap (fun c =>
    match c with
    | .unique => some (IRConstraint.unique fieldName)
    | .nonNull => some (IRConstraint.nonNull fieldName)
    | .key => some (IRConstraint.primaryKey fieldName)
    | _ => none)

/-- Accumulate the fields of a table definition into the schema; a
non-primitive field type makes the source panic, modelled as an error. -/
def lowerFields (schema : IRTableSchema) : List Field →
    Except String IRTableSchema
  | [] => .ok schema
  | field :: rest =>
    match fieldTypeFromAst field.fieldType with
    | none => .error "panic: cannot convert type to FieldType"
    | some fty =>
      let schema := { schema with
        fields := schema.fields ++ [IRField.mk field.name fty],
        constraints := schema.constraints ++
          lowerFieldConstraints field.name field.constraints }
      lowerFields schema rest

/-- `IRBuilder::lower_table_def`. -/
def lowerTableDef (bst : BuildState) (t : TableDef) :
    Except String (IRItem × BuildState) :=
  match lowerFields (IRTableSchema.new t.name) t.fields with
  | .error e => .error e
  | .ok schema => .ok (.tableDef t.name schema, bst)

/-- `IRBuilder::lower_page`: local variables are cleared for the new page
scope. -/
def lowerPage (bst : BuildState) (p : Page) :
    Except String (IRItem × BuildState) :=
  let bst := { bst with localVars := [] }
  match lowerStmts bst p.statements with
  | .error e => .error e
  | .ok (body, bst) => .ok (.pageDef p.name body, bst)

/-- `IRBuilder::lower_function_def`: local variables cleared, parameters
registered, body lowered. -/
def lowerFunctionDef (bst : BuildState) (f : FunctionDef) :
    Except String (IRItem × BuildState) :=
  let bst := { bst with localVars := [] }
  let params := f.params.map (fun p => IRParam.mk p.name (typeFromAst p.paramType))
  let bst := params.foldl (fun bst p =>
    { bst with localVars := lvInsert bst.localVars p.name p.ty }) bst
  match lowerStmts bst f.body with
  | .error e => .error e
  | .ok (body, bst) =>
    .ok (.functionDef f.name params (typeFromAst f.returnType) body false none, bst)

/-- `IRBuilder::lower_external_function`. -/
def lowerExternalFunction (bst : BuildState) (e : ExternalFunction) :
    Except String (IRItem × BuildState) :=
  let params := e.params.map (fun p => IRParam.mk p.name (typeFromAst p.paramType))
  .ok (.functionDef e.name params (typeFromAst e.returnType) [] true
    (some { language := "python", module := e.module }), bst)

/-- `IRBuilder::lower_test`: local variables cleared. -/
def lowerTest (bst : BuildState) (t : Test) :
    Except String (IRItem × BuildState) :=
  let bst := { bst with localVars := [] }
  match lowerStmts bst t.body with
  | .error e => .error e
  | .ok (body, bst) => .ok (.testDef t.name body, bst)

/-- Lower one program item (the `match` inside `IRBuilder::build`). -/
def lowerItem (bst : BuildState) : ProgramItem →
    Except String (IRItem × BuildState)
  | .tableDef t => lowerTableDef bst t
  | .page p => lowerPage bst p
  | .functionDef f => lowerFunctionDef bst f
  | .externalFunction e => lowerExternalFunction bst e
  | .test t => lowerTest bst t

/-- Lower the program items in order, collecting one IR item each. -/
def lowerItems (bst : BuildState) : List ProgramItem →
    Except String (List IRItem × BuildState)
  | [] => .ok ([], bst)
  | item :: rest =>
    match lowerItem bst item with
    | .error e => .error e
    | .ok (irItem, bst) =>
      match lowerItems bst rest with
      | .error e => .error e
      | .ok (restIR, bst) => .ok (irItem :: restIR, bst)

/-- Simplified rendering of a semantic error for the builder's error
string (the source joins `format!` Debug renderings with newlines; the
exact text carries no braces here to keep the rendering simple). -/
def reprSemanticError : SemanticError → String
  | .undefinedVariable name => "UndefinedVariable(" ++ name ++ ")"
  | .redefinition name => "Redefinition(" ++ name ++ ")"
  | .typeMismatch expected found => "TypeMismatch(" ++ expected ++ ", " ++ found ++ ")"
  | .uninitializedVariable name => "UninitializedVariable(" ++ name ++ ")"
  | .missingTypeOrInitializer name => "MissingTypeOrInitializer(" ++ name ++ ")"

/-- `IRBuilder::build`: re-run semantic analysis (fail fast on any
semantic error), adopt the resolved symbol table, then lower each program
item in order into the module's item list. -/
def build (p : Program) : Except String IRModule :=
  let s := analyzeState p
  if s.errors.isEmpty then
    let bst : BuildState :=
      { symbolTable := s.symbols, keyCounter := 0, localVars := [] }
    match lowerItems bst p.items with
    | .error e => .error e
    | .ok (items, bst) =>
      .ok { name := "<unknown>", items := items, symbols := bst.symbolTable }
  else
    .error (String.intercalate "\n" (s.errors.map reprSemanticError))

/-! ## Lexer (lexer.rs) -/

/-- Lexer state (lexer.rs `Lexer`): the full character vector, current
position, 1-based line/column, and accumulated diagnostics.  The `source`
copy kept for error context is omitted (never used by `tokenize`). -/
structure LexState where
  full : List Char
  pos : Nat
  line : Nat
  col : Nat
  diags : List Diagnostic

/-- `Lexer::new`. -/
def lexInit (input : String) : LexState :=
  { full := input.toList, pos := 0, line := 1, col := 1, diags := [] }

/-- `Lexer::is_at_end`. -/
def LexState.isAtEnd (st : LexState) : Bool :=
  st.full.length ≤ st.pos

/-- `Lexer::current_char` (`'\0'` at end of input). -/
def LexState.currentChar (st : LexState) : Char :=
  st.full.getD st.pos '\x00'

/-- `Lexer::peek`. -/
def LexState.peekChar (st : LexState) : Option Char :=
  st.full.get? (st.pos + 1)

/-- `Lexer::advance`: step one character, tracking line/column. -/
def LexState.advance (st : LexState) : LexState :=
  if st.pos < st.full.length then
    if st.full.getD st.pos '\x00' = '\n' then
      { st with pos := st.pos + 1, line := st.line + 1, col := 1 }
    else
      { st with pos := st.pos + 1, col := st.col + 1 }
  else st

/-- `Lexer::add_error`. -/
def LexState.addError (st : LexState) (code : ErrorCode) (message : String)
    (line column : Nat) : LexState :=
  { st with diags := st.diags ++
      [Diagnostic.mkError code message (Location.mk line column)] }

/-- Whitespace recognized by `skip_whitespace`. -/
def isWsChar (c : Char) : Bool :=
  c = ' ' || c = '\t' || c = '\r' || c = '\n'

/-- ASCII digit test (`char::is_ascii_digit`). -/
def isDigitChar (c : Char) : Bool :=
  '0' ≤ c && c ≤ '9'

/-- Letter test (`char::is_alphabetic`, restricted to ASCII; all inputs
exercised here are ASCII). -/
def isAlphaChar (c : Char) : Bool :=
  ('a' ≤ c && c ≤ 'z') || ('A' ≤ c && c ≤ 'Z')

/-- Letter-or-digit test (`char::is_alphanumeric`, ASCII). -/
def isAlnumChar (c : Char) : Bool :=
  isAlphaChar c || isDigitChar c

/-- `Lexer::skip_whitespace`. -/
def skipWhitespace : Nat → LexState → LexState
  | 0, st => st
  | fuel+1, st =>
    if !st.isAtEnd && isWsChar st.currentChar then
      skipWhitespace fuel st.advance
    else st

/-- `Lexer::skip_comment`: skip to the end of the line. -/
def skipComment : Nat → LexState → LexState
  | 0, st => st
  | fuel+1, st =>
    if !st.isAtEnd && st.currentChar ≠ '\n' then
      skipComment fuel st.advance
    else st

/-- Escape mapping inside `read_string` (an unrecognized escape passes the
following character through literally). -/
def escapeChar (c : Char) : Char :=
  if c = 'n' then '\n'
  else if c = 't' then '\t'
  else if c = 'r' then '\r'
  else if c = '\\' then '\\'
  else if c = '"' then '"'
  else c

/-- The scanning loop of `Lexer::read_string`: consume characters until
the closing quote or end of input, handling escapes. -/
def readStringLoop : Nat → String → LexState → String × LexState
  | 0, value, st => (value, st)
  | fuel+1, value, st =>
    if !st.isAtEnd && st.currentChar ≠ '"' then
      if st.currentChar = '\\' then
        let st := st.advance
        if !st.isAtEnd then
          readStringLoop fuel (value.push (escapeChar st.currentChar)) st.advance
        else
          readStringLoop fuel value st
      else
        readStringLoop fuel (value.push st.currentChar) st.advance
    else (value, st)

/-- `Lexer::read_string`: on a missing closing quote, record E1001 at the
opening quote's line/column and fail; otherwise produce the string
token (positioned at the opening quote). -/
def readString (fuel : Nat) (st : LexState) : Option Token × LexState :=
  let startLine := st.line
  let startCol := st.col
  let st := st.advance
  let r := readStringLoop fuel "" st
  let value := r.1
  let st := r.2
  if st.isAtEnd then
    (none, st.addError .e1001 "Unterminated string literal" startLine startCol)
  else
    (some (Token.mk (.stringLiteral value) startLine startCol), st.advance)

/-- The scanning loop of `Lexer::read_number`: digits with at most one
decimal point (a second `.` terminates the number without error). -/
def readNumberLoop : Nat → String → Bool → LexState →
    String × Bool × LexState
  | 0, value, isFloat, st => (value, isFloat, st)
  | fuel+1, value, isFloat, st =>
    if !st.isAtEnd && (isDigitChar st.currentChar || st.currentChar = '.') then
      if st.currentChar = '.' then
        if isFloat then (value, isFloat, st)
        else readNumberLoop fuel (value.push '.') true st.advance
      else readNumberLoop fuel (value.push st.currentChar) isFloat st.advance
    else (value, isFloat, st)

/-- Numeric value of a list of digit characters. -/
def natOfDigitList : Nat → List Char → Nat
  | n, [] => n
  | n, c :: rest => natOfDigitList (n * 10 + (c.toNat - 48)) rest

/-- Numeric value of a digit string. -/
def natOfDigits (s : String) : Nat :=
  natOfDigitList 0 s.toList

/-- `Lexer::read_number`: an integer literal overflowing `i64` is E1002;
the digit-and-single-dot strings this scanner produces always parse as
`f64`, so the float arm always succeeds (payload kept as the lexeme). -/
def readNumber (fuel : Nat) (st : LexState) : Option Token × LexState :=
  let startLine := st.line
  let startCol := st.col
  let r := readNumberLoop fuel "" false st
  let value := r.1
  let isFloat := r.2.1
  let st := r.2.2
  if isFloat then
    (some (Token.mk (.floatLiteral value) startLine startCol), st)
  else
    if natOfDigits value ≤ 9223372036854775807 then
      (some (Token.mk (.intLiteral (natOfDigits value)) startLine startCol), st)
    else
      (none, st.addError .e1002 ("Invalid integer '" ++ value ++ "'")
        startLine startCol)

/-- The scanning loop of `Lexer::read_identifier`. -/
def readIdentifierLoop : Nat → String → LexState → String × LexState
  | 0, value, st => (value, st)
  | fuel+1, value, st =>
    if !st.isAtEnd && (isAlnumChar st.currentChar || st.currentChar = '_') then
      readIdentifierLoop fuel (value.push st.currentChar) st.advance
    else (value, st)

/-- Keyword table of `Lexer::read_identifier`. -/
def keywordOf (value : String) : TokenType :=
  if value = "page" then .page
  else if value = "table" then .table
  else if value = "title" then .title
  else if value = "subtitle" then .subtitle
  else if value = "button" then .button
  else if value = "section" then .sectionKw
  else if value = "text" then .text
  else if value = "let" then .letKw
  else if value = "function" then .function
  else if value = "external" then .external
  else if value = "from" then .fromKw
  else if value = "import" then .impKw
  else if value = "test" then .test
  else if value = "mock" then .mock
  else if value = "assert" then .assert
  else if value = "if" then .ifKw
  else if value = "else" then .elseKw
  else if value = "forall" then .forallKw
  else if value = "in" then .inKw
  else if value = "return" then .returnKw
  else if value = "filter" then .filter
  else if value = "single" then .single
  else if value = "multi" then .multi
  else if value = "where" then .whereKw
  else if value = "by" then .byKw
  else if value = "asc" then .asc
  else if value = "desc" then .desc
  else if value = "key" then .key
  else if value = "ref" then .ref
  else if value = "int" then .int
  else if value = "float" then .float
  else if value = "string" then .string
  else if value = "date" then .date
  else if value = "currency" then .currency
  else if value = "bool" then .bool
  else if value = "number" then .number
  else if value = "true" then .boolLiteral true
  else if value = "false" then .boolLiteral false
  else .identifier value

/-- `Lexer::read_identifier`. -/
def readIdentifier (fuel : Nat) (st : LexState) : Option Token × LexState :=
  let startLine := st.line
  let startCol := st.col
  let r := readIdentifierLoop fuel "" st
  (some (Token.mk (keywordOf r.1) startLine startCol), r.2)

/-- The operator-and-delimiter arm of `Lexer::next_token` (the final
`match ch` of the source, split out as a helper). -/
def opToken (startLine startCol : Nat) (ch : Char) (st : LexState) :
    Option Token × LexState :=
  let mk1 (tt : TokenType) : Option Token × LexState :=
    (some (Token.mk tt startLine startCol), st.advance)
  if ch = '+' then mk1 .plus
      else if ch = '*' then mk1 .star
      else if ch = '/' then mk1 .slash
      else if ch = '%' then mk1 .percent
      else if ch = '(' then mk1 .leftParen
      else if ch = ')' then mk1 .rightParen
      else if ch = '{' then mk1 .leftBrace
      else if ch = '}' then mk1 .rightBrace
      else if ch = '[' then mk1 .leftBracket
      else if ch = ']' then mk1 .rightBracket
      else if ch = ',' then mk1 .comma
      else if ch = ':' then mk1 .colon
      else if ch = ';' then mk1 .semicolon
      else if ch = '.' then mk1 .dot
      else if ch = '-' then
        let st := st.advance
        if st.currentChar = '>' then
          (some (Token.mk .arrow startLine startCol), st.advance)
        else (some (Token.mk .minus startLine startCol), st)
      else if ch = '=' then
        let st := st.advance
        if st.currentChar = '=' then
          (some (Token.mk .equals startLine startCol), st.advance)
        else if st.currentChar = '>' then
          (some (Token.mk .fatArrow startLine startCol), st.advance)
        else (some (Token.mk .assign startLine startCol), st)
      else if ch = '!' then
        let st := st.advance
        if st.currentChar = '=' then
          (some (Token.mk .notEquals startLine startCol), st.advance)
        else (some (Token.mk .notOp startLine startCol), st)
      else if ch = '<' then
        let st := st.advance
        if st.currentChar = '=' then
          (some (Token.mk .lessThanEquals startLine startCol), st.advance)
        else (some (Token.mk .lessThan startLine startCol), st)
      else if ch = '>' then
        let st := st.advance
        if st.currentChar = '=' then
          (some (Token.mk .greaterThanEquals startLine startCol), st.advance)
        else (some (Token.mk .greaterThan startLine startCol), st)
      else if ch = '&' then
        let st := st.advance
        if st.currentChar = '&' then
          (some (Token.mk .andOp startLine startCol), st.advance)
        else
          (none, st.addError .e1003
            "Unexpected character, did you mean two ampersands?"
            startLine startCol)
      else if ch = '|' then
        let st := st.advance
        if st.currentChar = '|' then
          (some (Token.mk .orOp startLine startCol), st.advance)
        else
          (none, st.addError .e1003
            "Unexpected character, did you mean two pipes?"
            startLine startCol)
      else
        (none, st.addError .e1003 "Invalid character" startLine startCol)

/-- `Lexer::next_token`: dispatch on the current character; `Err` paths
have recorded a diagnostic (modelled as `none`). -/
def nextToken : Nat → LexState → Option Token × LexState
  | 0, st => (none, st)
  | fuel+1, st =>
    let startLine := st.line
    let startCol := st.col
    let ch := st.currentChar
    if ch = '/' && st.peekChar = some '/' then
      nextToken fuel (skipWhitespace fuel (skipComment fuel st))
    else if ch = '"' then
      readString fuel st
    else if isDigitChar ch then
      readNumber fuel st
    else if isAlphaChar ch || ch = '_' then
      -- note: this branch shadows the later `'_' => Underscore` match arm
      -- of the source, which is therefore unreachable: a lone `_` lexes as
      -- `Identifier("_")`.
      readIdentifier fuel st
    else
      opToken startLine startCol ch st

/-- The scanning loop of `Lexer::tokenize`: skip whitespace, read one
token, and on an error skip the offending character, until end of input. -/
def tokenizeLoop : Nat → LexState → List Token → List Token × LexState
  | 0, st, acc => (acc, st)
  | fuel+1, st, acc =>
    if st.isAtEnd then (acc, st)
    else
      let st := skipWhitespace (fuel+1) st
      if st.isAtEnd then (acc, st)
      else
        match nextToken (fuel+1) st with
        | (some tok, st) => tokenizeLoop fuel st (acc ++ [tok])
        | (none, st) => tokenizeLoop fuel st.advance acc

/-- `Lexer::tokenize` up to the `Err`/`Ok` split: the token list (with the
terminating EOF token appended) and the final lexer state. -/
def tokenizeRaw (input : String) : List Token × LexState :=
  let st0 := lexInit input
  let r := tokenizeLoop (st0.full.length + 1) st0 []
  (r.1 ++ [Token.mk .eof r.2.line r.2.col], r.2)

/-- Does the bag hold an error-severity diagnostic
(`DiagnosticBag::has_errors`)? -/
def hasErrors (diags : List Diagnostic) : Bool :=
  diags.any (fun d => d.severity = .error)

/-- `Lexer::tokenize`: the token list, or the diagnostics if any error was
recorded. -/
def tokenize (input : String) : Except (List Diagnostic) (List Token) :=
  let r := tokenizeRaw input
  if hasErrors r.2.diags then .error r.2.diags else .ok r.1

/-! ## Parser (parser.rs)

State-passing embedding of the recursive-descent parser: `Result<T, ()>`
with diagnostics in `self` becomes `Option T × ParserState`.  Recursion is
fuel-driven (structural on the fuel); `parseProgram` supplies fuel that
dominates the recursion depth of its token list. -/

/-- Parser state (parser.rs `Parser`). -/
structure ParserState where
  tokens : List Token
  cur : Nat
  diags : List Diagnostic

/-- Result of a parser production. -/
abbrev PRes (α : Type) : Type := Option α × ParserState

/-- The default token used for out-of-range indexing.  `Parser::peek`
indexes `tokens[current]` directly; on lexer-produced token lists (always
terminated by EOF) the index never runs past the end. -/
def padToken : Token := Token.mk .eof 0 0

/-- `Parser::peek`. -/
def ParserState.peek (st : ParserState) : Token :=
  st.tokens.getD st.cur padToken

/-- `Parser::is_at_end`. -/
def ParserState.isAtEnd (st : ParserState) : Bool :=
  st.peek.tokenType.sameKind .eof

/-- `Parser::advance` (position change only). -/
def ParserState.advance (st : ParserState) : ParserState :=
  if !st.isAtEnd then { st with cur := st.cur + 1 } else st

/-- `Parser::advance` with its returned token (`tokens[current - 1]` after
the increment; at EOF the position does not move and the previous token is
returned). -/
def ParserState.advanceReturning (st : ParserState) : Token × ParserState :=
  if !st.isAtEnd then (st.peek, { st with cur := st.cur + 1 })
  else (st.tokens.getD (st.cur - 1) padToken, st)

/-- `Parser::check`: discriminant comparison against the peeked token,
false at EOF. -/
def ParserState.check (st : ParserState) (tt : TokenType) : Bool :=
  if st.isAtEnd then false else st.peek.tokenType.sameKind tt

/-- `Parser::check_identifier`. -/
def ParserState.checkIdentifier (st : ParserState) : Bool :=
  if st.isAtEnd then false
  else match st.peek.tokenType with
    | .identifier _ => true
    | _ => false

/-- `Parser::check_identifier_value`. -/
def ParserState.checkIdentifierValue (st : ParserState) (value : String) : Bool :=
  if st.isAtEnd then false
  else match st.peek.tokenType with
    | .identifier id => id = value
    | _ => false

/-- `Parser::add_error`: record a diagnostic at the peeked token. -/
def ParserState.addError (st : ParserState) (code : ErrorCode)
    (message : String) : ParserState :=
  let tok := st.peek
  { st with diags := st.diags ++
      [Diagnostic.mkError code message (Location.mk tok.line tok.column)] }

/-- `Parser::expect`. -/
def ParserState.expect (st : ParserState) (tt : TokenType) : PRes Unit :=
  if st.check tt then (some (), st.advance)
  else (none, st.addError .e2011 "Expected a different token")

/-- `Parser::expect_identifier`. -/
def ParserState.expectIdentifier (st : ParserState) : PRes String :=
  match st.peek.tokenType with
  | .identifier name => (some name, st.advance)
  | _ => (none, st.addError .e2002 "Expected identifier")

/-- `Parser::expect_string`. -/
def ParserState.expectString (st : ParserState) : PRes String :=
  match st.peek.tokenType with
  | .stringLiteral s => (some s, st.advance)
  | _ => (none, st.addError .e2011 "Expected string literal")

/-- `Parser::parse_type` (non-recursive): primitive type keywords,
`number` as an alias of float, `text` as string, and `ref TableName`. -/
def parseType (st : ParserState) : PRes Ty :=
  let r := st.advanceReturning
  let tok := r.1
  let st := r.2
  match tok.tokenType with
  | .int => (some .int, st)
  | .float => (some .float, st)
  | .number => (some .float, st)
  | .string => (some .string, st)
  | .text => (some .string, st)
  | .date => (some .date, st)
  | .currency => (some .currency, st)
  | .bool => (some .bool, st)
  | .filter => (some .filter, st)
  | .ref =>
    (match st.expectIdentifier with
    | (some tableName, st) => (some (.ref tableName), st)
    | (none, st) => (none, st))
  | _ => (none, st.addError .e2003 "Expected type")

mutual

/-- `Parser::parse_expression`. -/
def parseExpression : Nat → ParserState → PRes Expr
  | 0, st => (none, st)
  | fuel+1, st => parseChain fuel st

/-- `Parser::parse_chain` (`->` chains, left associated). -/
def parseChain : Nat → ParserState → PRes Expr
  | 0, st => (none, st)
  | fuel+1, st =>
    match parseWhereSort fuel st with
    | (none, st) => (none, st)
    | (some left, st) => parseChainLoop fuel left st

/-- The `while` loop of `parse_chain`. -/
def parseChainLoop : Nat → Expr → ParserState → PRes Expr
  | 0, _, st => (none, st)
  | fuel+1, left, st =>
    if st.check .arrow then
      match parseWhereSort fuel st.advance with
      | (none, st) => (none, st)
      | (some right, st) => parseChainLoop fuel (.chain left right) st
    else (some left, st)

/-- `Parser::parse_where_sort` (postfix `where` / `sort by`). -/
def parseWhereSort : Nat → ParserState → PRes Expr
  | 0, st => (none, st)
  | fuel+1, st =>
    match parseOr fuel st with
    | (none, st) => (none, st)
    | (some e, st) => parseWhereSortLoop fuel e st

/-- The `loop` of `parse_where_sort`. -/
def parseWhereSortLoop : Nat → Expr → ParserState → PRes Expr
  | 0, _, st => (none, st)
  | fuel+1, e, st =>
    if st.check .whereKw then
      match parseOr fuel st.advance with
      | (none, st) => (none, st)
      | (some condition, st) =>
        parseWhereSortLoop fuel (.whereExpr e condition) st
    else if st.checkIdentifierValue "sort" then
      match st.advance.expect .byKw with
      | (none, st) => (none, st)
      | (some _, st) =>
        match parseSortColumns fuel [] st with
        | (none, st) => (none, st)
        | (some columns, st) => parseWhereSortLoop fuel (.sortBy e columns) st
    else (some e, st)

/-- The column loop of the `sort by` suffix. -/
def parseSortColumns : Nat → List SortColumn → ParserState → PRes (List SortColumn)
  | 0, _, st => (none, st)
  | fuel+1, acc, st =>
    match st.expectIdentifier with
    | (none, st) => (none, st)
    | (some colName, st) =>
      let r : Bool × ParserState :=
        if st.check .asc then (true, st.advance)
        else if st.check .desc then (false, st.advance)
        else (true, st)
      let ascending := r.1
      let st := r.2
      let acc := acc ++ [SortColumn.mk colName ascending]
      if st.check .comma then parseSortColumns fuel acc st.advance
      else (some acc, st)

/-- `Parser::parse_or`. -/
def parseOr : Nat → ParserState → PRes Expr
  | 0, st => (none, st)
  | fuel+1, st =>
    match parseAnd fuel st with
    | (none, st) => (none, st)
    | (some left, st) => parseOrLoop fuel left st

/-- The `while` loop of `parse_or`. -/
def parseOrLoop : Nat → Expr → ParserState → PRes Expr
  | 0, _, st => (none, st)
  | fuel+1, left, st =>
    if st.check .orOp then
      match parseAnd fuel st.advance with
      | (none, st) => (none, st)
      | (some right, st) => parseOrLoop fuel (.binaryOp .orOp left right) st
    else (some left, st)

/-- `Parser::parse_and`. -/
def parseAnd : Nat → ParserState → PRes Expr
  | 0, st => (none, st)
  | fuel+1, st =>
    match parseEquality fuel st with
    | (none, st) => (none, st)
    | (some left, st) => parseAndLoop fuel left st

/-- The `while` loop of `parse_and`. -/
def parseAndLoop : Nat → Expr → ParserState → PRes Expr
  | 0, _, st => (none, st)
  | fuel+1, left, st =>
    if st.check .andOp then
      match parseEquality fuel st.advance with
      | (none, st) => (none, st)
      | (some right, st) => parseAndLoop fuel (.binaryOp .andOp left right) st
    else (some left, st)

/-- `Parser::parse_equality`. -/
def parseEquality : Nat → ParserState → PRes Expr
  | 0, st => (none, st)
  | fuel+1, st =>
    match parseComparison fuel st with
    | (none, st) => (none, st)
    | (some left, st) => parseEqualityLoop fuel left st

/-- The `while` loop of `parse_equality`. -/
def parseEqualityLoop : Nat → Expr → ParserState → PRes Expr
  | 0, _, st => (none, st)
  | fuel+1, left, st =>
    if st.check .equals || st.check .notEquals then
      let op : BinaryOp := if st.check .equals then .equal else .notEqual
      match parseComparison fuel st.advance with
      | (none, st) => (none, st)
      | (some right, st) => parseEqualityLoop fuel (.binaryOp op left right) st
    else (some left, st)

/-- `Parser::parse_comparison`. -/
def parseComparison : Nat → ParserState → PRes Expr
  | 0, st => (none, st)
  | fuel+1, st =>
    match parseAddition fuel st with
    | (none, st) => (none, st)
    | (some left, st) => parseComparisonLoop fuel left st

/-- The `while` loop of `parse_comparison`. -/
def parseComparisonLoop : Nat → Expr → ParserState → PRes Expr
  | 0, _, st => (none, st)
  | fuel+1, left, st =>
    if st.check .lessThan || st.check .lessThanEquals ||
        st.check .greaterThan || st.check .greaterThanEquals then
      let op : BinaryOp :=
        if st.check .lessThan then .lessThan
        else if st.check .lessThanEquals then .lessThanEqual
        else if st.check .greaterThan then .greaterThan
        else .greaterThanEqual
      match parseAddition fuel st.advance with
      | (none, st) => (none, st)
      | (some right, st) => parseComparisonLoop fuel (.binaryOp op left right) st
    else (some left, st)

/-- `Parser::parse_addition`: the `-` token parses to the AST operator
`Subtract`. -/
def parseAddition : Nat → ParserState → PRes Expr
  | 0, st => (none, st)
  | fuel+1, st =>
    match parseMultiplication fuel st with
    | (none, st) => (none, st)
    | (some left, st) => parseAdditionLoop fuel left st

/-- The `while` loop of `parse_addition`. -/
def parseAdditionLoop : Nat → Expr → ParserState → PRes Expr
  | 0, _, st => (none, st)
  | fuel+1, left, st =>
    if st.check .plus || st.check .minus then
      let op : BinaryOp := if st.check .plus then .add else .subtract
      match parseMultiplication fuel st.advance with
      | (none, st) => (none, st)
      | (some right, st) => parseAdditionLoop fuel (.binaryOp op left right) st
    else (some left, st)

/-- `Parser::parse_multiplication`. -/
def parseMultiplication : Nat → ParserState → PRes Expr
  | 0, st => (none, st)
  | fuel+1, st =>
    match parseUnary fuel st with
    | (none, st) => (none, st)
    | (some left, st) => parseMultiplicationLoop fuel left st

/-- The `while` loop of `parse_multiplication`. -/
def parseMultiplicationLoop : Nat → Expr → ParserState → PRes Expr
  | 0, _, st => (none, st)
  | fuel+1, left, st =>
    if st.check .star || st.check .slash || st.check .percent then
      let op : BinaryOp :=
        if st.check .star then .multiply
        else if st.check .slash then .divide
        else .modulo
      match parseUnary fuel st.advance with
      | (none, st) => (none, st)
      | (some right, st) =>
        parseMultiplicationLoop fuel (.binaryOp op left right) st
    else (some left, st)

/-- `Parser::parse_unary`. -/
def parseUnary : Nat → ParserState → PRes Expr
  | 0, st => (none, st)
  | fuel+1, st =>
    if st.check .notOp || st.check .minus then
      let op : UnaryOp := if st.check .notOp then .notOp else .negate
      match parseUnary fuel st.advance with
      | (none, st) => (none, st)
      | (some operand, st) => (some (.unaryOp op operand), st)
    else parsePostfix fuel st

/-- `Parser::parse_postfix`. -/
def parsePostfix : Nat → ParserState → PRes Expr
  | 0, st => (none, st)
  | fuel+1, st =>
    match parsePrimary fuel st with
    | (none, st) => (none, st)
    | (some e, st) => parsePostfixLoop fuel e st

/-- The `loop` of `parse_postfix`: `.field` accesses and bracket
suffixes. -/
def parsePostfixLoop : Nat → Expr → ParserState → PRes Expr
  | 0, _, st => (none, st)
  | fuel+1, e, st =>
    if st.check .dot then
      match st.advance.expectIdentifier with
      | (none, st) => (none, st)
      | (some field, st) => parsePostfixLoop fuel (.fieldAccess e field) st
    else if st.check .leftBracket then
      match parseBracketSuffix fuel e st.advance with
      | (none, st) => (none, st)
      | (some e, st) => parsePostfixLoop fuel e st
    else (some e, st)

/-- The body of the `LeftBracket` branch of `parse_postfix`, entered with
the `[` already consumed: a leading bare identifier commits to column
selection (`,`-separated names up to `]`, otherwise E2001); any other
leading token parses a full expression as an index. -/
def parseBracketSuffix : Nat → Expr → ParserState → PRes Expr
  | 0, _, st => (none, st)
  | fuel+1, e, st =>
    if st.checkIdentifier then
      match st.expectIdentifier with
      | (none, st) => (none, st)
      | (some firstCol, st) =>
        if st.check .comma then
          match parseColumnList fuel [firstCol] st with
          | (none, st) => (none, st)
          | (some columns, st) =>
            (match st.expect .rightBracket with
            | (none, st) => (none, st)
            | (some _, st) => (some (.columnSelect e columns), st))
        else if st.check .rightBracket then
          (some (.columnSelect e [firstCol]), st.advance)
        else
          (none, st.addError .e2001 "Expected ',' or ']' in column selection")
    else
      match parseExpression fuel st with
      | (none, st) => (none, st)
      | (some index, st) =>
        (match st.expect .rightBracket with
        | (none, st) => (none, st)
        | (some _, st) => (some (.indexExpr e index), st))

/-- The `while` loop collecting further column names after a comma. -/
def parseColumnList : Nat → List String → ParserState → PRes (List String)
  | 0, _, st => (none, st)
  | fuel+1, acc, st =>
    if st.check .comma then
      match st.advance.expectIdentifier with
      | (none, st) => (none, st)
      | (some col, st) => parseColumnList fuel (acc ++ [col]) st
    else (some acc, st)

/-- `Parser::parse_primary`. -/
def parsePrimary : Nat → ParserState → PRes Expr
  | 0, st => (none, st)
  | fuel+1, st =>
    let tok := st.peek
    match tok.tokenType with
    | .intLiteral n => (some (.intLiteral n), st.advance)
    | .floatLiteral f => (some (.floatLiteral f), st.advance)
    | .stringLiteral s => (some (.stringLiteral s), st.advance)
    | .boolLiteral b => (some (.boolLiteral b), st.advance)
    | .identifier name =>
      let st := st.advance
      if st.check .leftParen then
        match parseArguments fuel st.advance with
        | (none, st) => (none, st)
        | (some args, st) =>
          (match st.expect .rightParen with
          | (none, st) => (none, st)
          | (some _, st) => (some (.functionCall name args), st))
      else (some (.identifier name), st)
    | .underscore => (some (.identifier "_"), st.advance)
    | .leftParen =>
      (match parseExpression fuel st.advance with
      | (none, st) => (none, st)
      | (some e, st) =>
        match st.expect .rightParen with
        | (none, st) => (none, st)
        | (some _, st) => (some e, st))
    | .leftBracket =>
      let st := st.advance
      if st.check .rightBracket then (some (.arrayLiteral []), st.advance)
      else
        (match parseExpression fuel st with
        | (none, st) => (none, st)
        | (some first, st) =>
          match parseArrayElems fuel [first] st with
          | (none, st) => (none, st)
          | (some elements, st) =>
            match st.expect .rightBracket with
            | (none, st) => (none, st)
            | (some _, st) => (some (.arrayLiteral elements), st))
    | .filter =>
      (match st.advance.expect .leftParen with
      | (none, st) => (none, st)
      | (some _, st) =>
        match st.expectString with
        | (none, st) => (none, st)
        | (some column, st) =>
          match st.expect .comma with
          | (none, st) => (none, st)
          | (some _, st) =>
            let r := st.advanceReturning
            let modeTok := r.1
            let st := r.2
            match
              (match modeTok.tokenType with
              | .single => (some FilterMode.single, st)
              | .multi => (some FilterMode.multi, st)
              | _ =>
                (none, st.addError .e2011 "Expected 'single' or 'multi'") :
                PRes FilterMode) with
            | (none, st) => (none, st)
            | (some mode, st) =>
              match st.expect .rightParen with
              | (none, st) => (none, st)
              | (some _, st) =>
                (some (.filterLiteral (FilterDef.mk column mode)), st))
    | _ => (none, st.addError .e2001 "Unexpected token in expression")

/-- The `while` loop collecting array elements after the first. -/
def parseArrayElems : Nat → List Expr → ParserState → PRes (List Expr)
  | 0, _, st => (none, st)
  | fuel+1, acc, st =>
    if st.check .comma then
      match parseExpression fuel st.advance with
      | (none, st) => (none, st)
      | (some e, st) => parseArrayElems fuel (acc ++ [e]) st
    else (some acc, st)

/-- `Parser::parse_arguments`. -/
def parseArguments : Nat → ParserState → PRes (List Expr)
  | 0, st => (none, st)
  | fuel+1, st =>
    if st.check .rightParen then (some [], st)
    else parseArgumentsLoop fuel [] st

/-- The `loop` of `parse_arguments`. -/
def parseArgumentsLoop : Nat → List Expr → ParserState → PRes (List Expr)
  | 0, _, st => (none, st)
  | fuel+1, acc, st =>
    match parseExpression fuel st with
    | (none, st) => (none, st)
    | (some e, st) =>
      let acc := acc ++ [e]
      if st.check .comma then parseArgumentsLoop fuel acc st.advance
      else (some acc, st)

end

mutual

/-- `Parser::parse_statement`.  Statement dispatch on the leading token;
note there is no arm for the `Forall` token: a `forall` statement falls
into the catch-all and reports E2001. -/
def parseStatement : Nat → ParserState → PRes Statement
  | 0, st => (none, st)
  | fuel+1, st =>
    match st.peek.tokenType with
    | .title =>
      (match st.advance.expectString with
      | (none, st) => (none, st)
      | (some text, st) => (some (.title text), st))
    | .subtitle =>
      (match st.advance.expectString with
      | (none, st) => (none, st)
      | (some text, st) => (some (.subtitle text), st))
    | .text =>
      (match st.advance.expectString with
      | (none, st) => (none, st)
      | (some text, st) => (some (.text text), st))
    | .button =>
      (match st.advance.expectString with
      | (none, st) => (none, st)
      | (some label, st) =>
        match st.expect .leftBrace with
        | (none, st) => (none, st)
        | (some _, st) =>
          match parseStatementsUntil fuel [] st with
          | (none, st) => (none, st)
          | (some body, st) =>
            match st.expect .rightBrace with
            | (none, st) => (none, st)
            | (some _, st) => (some (.button label body), st))
    | .sectionKw =>
      (match st.advance.expectString with
      | (none, st) => (none, st)
      | (some stitle, st) =>
        match st.expect .leftBrace with
        | (none, st) => (none, st)
        | (some _, st) =>
          match parseStatementsUntil fuel [] st with
          | (none, st) => (none, st)
          | (some body, st) =>
            match st.expect .rightBrace with
            | (none, st) => (none, st)
            | (some _, st) => (some (.sectionStmt stitle body), st))
    | .letKw =>
      (match st.advance.expectIdentifier with
      | (none, st) => (none, st)
      | (some name, st) =>
        match
          (if st.check .colon then
            match parseType st.advance with
            | (none, st) => (none, st)
            | (some t, st) => (some (some t), st)
          else (some none, st) : PRes (Option Ty)) with
        | (none, st) => (none, st)
        | (some tyAnn, st) =>
          match
            (if st.check .assign then
              match parseExpression fuel st.advance with
              | (none, st) => (none, st)
              | (some v, st) => (some (some v), st)
            else (some none, st) : PRes (Option Expr)) with
          | (none, st) => (none, st)
          | (some value, st) =>
            if tyAnn.isNone && value.isNone then
              (none, st.addError .e2004
                "Variable must have either a type annotation or an initializer")
            else (some (.letStmt name tyAnn value), st))
    | .ifKw =>
      (match parseExpression fuel st.advance with
      | (none, st) => (none, st)
      | (some condition, st) =>
        match st.expect .leftBrace with
        | (none, st) => (none, st)
        | (some _, st) =>
          match parseStatementsUntil fuel [] st with
          | (none, st) => (none, st)
          | (some thenBranch, st) =>
            match st.expect .rightBrace with
            | (none, st) => (none, st)
            | (some _, st) =>
              if st.check .elseKw then
                match st.advance.expect .leftBrace with
                | (none, st) => (none, st)
                | (some _, st) =>
                  match parseStatementsUntil fuel [] st with
                  | (none, st) => (none, st)
                  | (some elseStmts, st) =>
                    match st.expect .rightBrace with
                    | (none, st) => (none, st)
                    | (some _, st) =>
                      (some (.ifStmt condition thenBranch (some elseStmts)), st)
              else (some (.ifStmt condition thenBranch none), st))
    | .returnKw =>
      (match parseExpression fuel st.advance with
      | (none, st) => (none, st)
      | (some value, st) => (some (.returnStmt value), st))
    | .identifier _ =>
      (match parseExpression fuel st with
      | (none, st) => (none, st)
      | (some nameOrExpr, st) =>
        match nameOrExpr with
        | .identifier name =>
          if st.check .assign then
            match parseExpression fuel st.advance with
            | (none, st) => (none, st)
            | (some value, st) => (some (.assign name value), st)
          else
            (none, st.addError .e2001 "Expected function call or assignment")
        | .functionCall name args => (some (.functionCallStmt name args), st)
        | _ => (none, st.addError .e2001 "Expected function call or assignment"))
    | _ => (none, st.addError .e2001 "Unexpected token in statement")

/-- The statement loops (`while !self.check(&TokenType::RightBrace)`)
shared by page/button/section/if/function/test bodies. -/
def parseStatementsUntil : Nat → List Statement → ParserState →
    PRes (List Statement)
  | 0, _, st => (none, st)
  | fuel+1, acc, st =>
    if st.check .rightBrace then (some acc, st)
    else
      match parseStatement fuel st with
      | (none, st) => (none, st)
      | (some stmt, st) => parseStatementsUntil fuel (acc ++ [stmt]) st

end

/-- The constraint loop of `Parser::parse_constraints`: `key`, or the bare
identifiers `unique`/`non_null` (anything else is E2012),
comma-separated. -/
def parseConstraintsLoop : Nat → List Constraint → ParserState →
    PRes (List Constraint)
  | 0, _, st => (none, st)
  | fuel+1, acc, st =>
    match
      (match st.peek.tokenType with
      | .key => (some Constraint.key, st.advance)
      | .identifier identStr =>
        let st := st.advance
        if identStr = "unique" then (some Constraint.unique, st)
        else if identStr = "non_null" then (some Constraint.nonNull, st)
        else (none, st.addError .e2012 "Unknown constraint")
      | _ => (none, st.addError .e2012 "Expected constraint") :
        PRes Constraint) with
    | (none, st) => (none, st)
    | (some constraint, st) =>
      let acc := acc ++ [constraint]
      if st.check .comma then parseConstraintsLoop fuel acc st.advance
      else (some acc, st)

/-- `Parser::parse_field`: `name: type` with optional `[constraints]` and
an optional trailing comma. -/
def parseField (fuel : Nat) (st : ParserState) : PRes Field :=
  match st.expectIdentifier with
  | (none, st) => (none, st)
  | (some name, st) =>
    match st.expect .colon with
    | (none, st) => (none, st)
    | (some _, st) =>
      match parseType st with
      | (none, st) => (none, st)
      | (some fieldType, st) =>
        match
          (if st.check .leftBracket then
            match parseConstraintsLoop fuel [] st.advance with
            | (none, st) => (none, st)
            | (some cs, st) =>
              match st.expect .rightBracket with
              | (none, st) => (none, st)
              | (some _, st) => (some cs, st)
          else (some [], st) : PRes (List Constraint)) with
        | (none, st) => (none, st)
        | (some constraints, st) =>
          let st := if st.check .comma then st.advance else st
          (some (Field.mk name fieldType constraints), st)

/-- The field loop of `Parser::parse_table_def`. -/
def parseFieldsLoop : Nat → List Field → ParserState → PRes (List Field)
  | 0, _, st => (none, st)
  | fuel+1, acc, st =>
    if st.check .rightBrace then (some acc, st)
    else
      match parseField fuel st with
      | (none, st) => (none, st)
      | (some field, st) => parseFieldsLoop fuel (acc ++ [field]) st

/-- `Parser::parse_table_def`. -/
def parseTableDef (fuel : Nat) (st : ParserState) : PRes TableDef :=
  match st.expect .table with
  | (none, st) => (none, st)
  | (some _, st) =>
    match st.expectIdentifier with
    | (none, st) => (none, st)
    | (some name, st) =>
      match st.expect .leftBrace with
      | (none, st) => (none, st)
      | (some _, st) =>
        match parseFieldsLoop fuel [] st with
        | (none, st) => (none, st)
        | (some fields, st) =>
          match st.expect .rightBrace with
          | (none, st) => (none, st)
          | (some _, st) => (some (TableDef.mk name fields), st)

/-- `Parser::parse_page`. -/
def parsePage (fuel : Nat) (st : ParserState) : PRes Page :=
  match st.expect .page with
  | (none, st) => (none, st)
  | (some _, st) =>
    match st.expectIdentifier with
    | (none, st) => (none, st)
    | (some name, st) =>
      match st.expect .leftBrace with
      | (none, st) => (none, st)
      | (some _, st) =>
        match parseStatementsUntil fuel [] st with
        | (none, st) => (none, st)
        | (some statements, st) =>
          match st.expect .rightBrace with
          | (none, st) => (none, st)
          | (some _, st) => (some (Page.mk name statements), st)

/-- The parameter loop of `Parser::parse_parameters`. -/
def parseParametersLoop : Nat → List Parameter → ParserState →
    PRes (List Parameter)
  | 0, _, st => (none, st)
  | fuel+1, acc, st =>
    match st.expectIdentifier with
    | (none, st) => (none, st)
    | (some name, st) =>
      match st.expect .colon with
      | (none, st) => (none, st)
      | (some _, st) =>
        match parseType st with
        | (none, st) => (none, st)
        | (some paramType, st) =>
          let acc := acc ++ [Parameter.mk name paramType]
          if st.check .comma then parseParametersLoop fuel acc st.advance
          else (some acc, st)

/-- `Parser::parse_parameters`. -/
def parseParameters (fuel : Nat) (st : ParserState) : PRes (List Parameter) :=
  if st.check .rightParen then (some [], st)
  else parseParametersLoop fuel [] st

/-- `Parser::parse_function_def`. -/
def parseFunctionDef (fuel : Nat) (st : ParserState) : PRes FunctionDef :=
  match st.expect .function with
  | (none, st) => (none, st)
  | (some _, st) =>
    match st.expectIdentifier with
    | (none, st) => (none, st)
    | (some name, st) =>
      match st.expect .leftParen with
      | (none, st) => (none, st)
      | (some _, st) =>
        match parseParameters fuel st with
        | (none, st) => (none, st)
        | (some params, st) =>
          match st.expect .rightParen with
          | (none, st) => (none, st)
          | (some _, st) =>
            match st.expect .arrow with
            | (none, st) => (none, st)
            | (some _, st) =>
              match parseType st with
              | (none, st) => (none, st)
              | (some returnType, st) =>
                match st.expect .leftBrace with
                | (none, st) => (none, st)
                | (some _, st) =>
                  match parseStatementsUntil fuel [] st with
                  | (none, st) => (none, st)
                  | (some body, st) =>
                    match st.expect .rightBrace with
                    | (none, st) => (none, st)
                    | (some _, st) =>
                      (some (FunctionDef.mk name params returnType body), st)

/-- `Parser::parse_external_function`. -/
def parseExternalFunction (fuel : Nat) (st : ParserState) :
    PRes ExternalFunction :=
  match st.expect .external with
  | (none, st) => (none, st)
  | (some _, st) =>
    match st.expect .function with
    | (none, st) => (none, st)
    | (some _, st) =>
      match st.expectIdentifier with
      | (none, st) => (none, st)
      | (some name, st) =>
        match st.expect .leftParen with
        | (none, st) => (none, st)
        | (some _, st) =>
          match parseParameters fuel st with
          | (none, st) => (none, st)
          | (some params, st) =>
            match st.expect .rightParen with
            | (none, st) => (none, st)
            | (some _, st) =>
              match st.expect .arrow with
              | (none, st) => (none, st)
              | (some _, st) =>
                match parseType st with
                | (none, st) => (none, st)
                | (some returnType, st) =>
                  match st.expect .fromKw with
                  | (none, st) => (none, st)
                  | (some _, st) =>
                    match st.expectString with
                    | (none, st) => (none, st)
                    | (some module, st) =>
                      (some (ExternalFunction.mk name params returnType module), st)

/-- `Parser::parse_test`. -/
def parseTest (fuel : Nat) (st : ParserState) : PRes Test :=
  match st.expect .test with
  | (none, st) => (none, st)
  | (some _, st) =>
    match st.expectString with
    | (none, st) => (none, st)
    | (some name, st) =>
      match st.expect .leftBrace with
      | (none, st) => (none, st)
      | (some _, st) =>
        match parseStatementsUntil fuel [] st with
        | (none, st) => (none, st)
        | (some body, st) =>
          match st.expect .rightBrace with
          | (none, st) => (none, st)
          | (some _, st) => (some (Test.mk name body), st)

/-- `Parser::parse_program_item`: top-level dispatch on the leading
keyword; an unrecognized leading token is E2001. -/
def parseProgramItem (fuel : Nat) (st : ParserState) : PRes ProgramItem :=
  match st.peek.tokenType with
  | .table =>
    (match parseTableDef fuel st with
    | (none, st) => (none, st)
    | (some t, st) => (some (.tableDef t), st))
  | .page =>
    (match parsePage fuel st with
    | (none, st) => (none, st)
    | (some p, st) => (some (.page p), st))
  | .function =>
    (match parseFunctionDef fuel st with
    | (none, st) => (none, st)
    | (some f, st) => (some (.functionDef f), st))
  | .external =>
    (match parseExternalFunction fuel st with
    | (none, st) => (none, st)
    | (some e, st) => (some (.externalFunction e), st))
  | .test =>
    (match parseTest fuel st with
    | (none, st) => (none, st)
    | (some t, st) => (some (.test t), st))
  | _ =>
    (none, st.addError .e2001
      "Expected table, page, function, external, or test")

/-- `Parser::synchronize`: skip tokens until one of the five top-level
keywords or EOF. -/
def synchronize : Nat → ParserState → ParserState
  | 0, st => st
  | fuel+1, st =>
    if st.isAtEnd then st
    else
      match st.peek.tokenType with
      | .page | .table | .function | .external | .test => st
      | _ => synchronize fuel st.advance

/-- The item loop of `Parser::parse`: collect items, synchronizing after
each failed item. -/
def parseItemsLoop : Nat → List ProgramItem → ParserState →
    List ProgramItem × ParserState
  | 0, acc, st => (acc, st)
  | fuel+1, acc, st =>
    if st.isAtEnd then (acc, st)
    else
      match parseProgramItem fuel st with
      | (some item, st) => parseItemsLoop fuel (acc ++ [item]) st
      | (none, st) => parseItemsLoop fuel acc (synchronize fuel st)

/-- `Parser::parse`: a complete `Program` only if the diagnostic bag
stayed free of errors, otherwise the bag. -/
def parseTokens (tokens : List Token) :
    Except (List Diagnostic) Program × ParserState :=
  let fuel := 32 * (tokens.length + 2)
  let st0 : ParserState := { tokens := tokens, cur := 0, diags := [] }
  let r := parseItemsLoop fuel [] st0
  let items := r.1
  let st := r.2
  if hasErrors st.diags then (.error st.diags, st)
  else (.ok (Program.mk items), st)

/-! ## Specification-side definitions

Predicates and concrete example values used by the claim statements below;
they are spec artifacts, not part of the embedded program. -/

/-- Count of `TypeMismatch` errors in an error list. -/
def countTM (errors : List SemanticError) : Nat :=
  errors.countP (fun e =>
    match e with
    | .typeMismatch _ _ => true
    | _ => false)

/-- Count of E1001 diagnostics. -/
def countE1001 (diags : List Diagnostic) : Nat :=
  diags.countP (fun d => d.code = .e1001)

/-- Line/column step of the lexer over one character. -/
def lcStep (lc : Nat × Nat) (c : Char) : Nat × Nat :=
  if c = '\n' then (lc.1 + 1, 1) else (lc.1, lc.2 + 1)

/-- The 1-based line/column coordinates of position `p` in `full`. -/
def lineColAt (full : List Char) (p : Nat) : Nat × Nat :=
  (full.take p).foldl lcStep (1, 1)

/-- Lexer-state well-formedness: the cursor is inside the input (or one
past it) and the tracked line/column agree with the character data. -/
def LexInv (st : LexState) : Prop :=
  st.pos ≤ st.full.length ∧ (st.line, st.col) = lineColAt st.full st.pos

/-- An unterminated-string diagnostic points at an opening quote: if the
diagnostic is an E1001, its location is the line/column of some `"`
character of the input. -/
def DiagOK (full : List Char) (d : Diagnostic) : Prop :=
  d.code = .e1001 →
    ∃ p, p < full.length ∧ full.get? p = some '"' ∧
      d.location = Location.mk (lineColAt full p).1 (lineColAt full p).2

/-- Postcondition of one `next_token` step from `st`: the input is
unchanged, well-formedness is preserved, the cursor does not move
backwards (and strictly advances unless the step failed), and the
diagnostics grow by a suffix in which every E1001 points at a `"` of the
input — with at most one E1001, recorded only when the cursor has reached
the end of the input. -/
def NextTokenOK (st : LexState) (r : Option Token × LexState) : Prop :=
  r.2.full = st.full ∧ LexInv r.2 ∧ st.pos ≤ r.2.pos ∧
  (st.isAtEnd = false → st.pos < r.2.pos ∨ r.1 = none) ∧
  ∃ new, r.2.diags = st.diags ++ new ∧ (∀ d ∈ new, DiagOK st.full d) ∧
    (countE1001 new = 0 ∨ (countE1001 new = 1 ∧ r.2.pos = st.full.length))

/-- The intermediate analyzer state right after the `let` statement's
variable has been defined (type inferred from the initializer), before the
annotation/initializer compatibility check. -/
def letDefState (s : SemState) (name : String) (v : Expr) : SemState :=
  s.defineSym name
    { name := name, symbolType := inferExprType s v, kind := .variable,
      isInitialized := true, isMutable := false }

/-- Is an IR expression the table set-difference node? -/
def isSetDifference : IRExpr → Bool
  | .minus _ _ _ => true
  | _ => false

/-- Kind-and-name correspondence between a program item and the IR item
its lowering produces. -/
def itemMatches : ProgramItem → IRItem → Prop
  | .tableDef t, .tableDef n _ => n = t.name
  | .page pg, .pageDef n _ => n = pg.name
  | .functionDef f, .functionDef n _ _ _ isExt _ => n = f.name ∧ isExt = false
  | .externalFunction e, .functionDef n _ _ body isExt _ =>
    n = e.name ∧ isExt = true ∧ body = []
  | .test t, .testDef n _ => n = t.name
  | _, _ => False

mutual

/-- Does `name` occur as an `Expr::Identifier` in a position that
`check_expression` visits inside this expression?  (Table literals are in
the checker's catch-all, so their sub-expressions are not visited.) -/
def exprUses (name : String) : Expr → Bool
  | .identifier m => m = name
  | .functionCall _ args => exprsUse name args
  | .binaryOp _ l r => exprUses name l || exprUses name r
  | .unaryOp _ operand => exprUses name operand
  | .lambda _ body => exprUses name body
  | .fieldAccess object _ => exprUses name object
  | .indexExpr object ix => exprUses name object || exprUses name ix
  | .chain l r => exprUses name l || exprUses name r
  | .arrayLiteral items => exprsUse name items
  | _ => false

/-- Any member of the list uses the name (in a visited position). -/
def exprsUse (name : String) : List Expr → Bool
  | [] => false
  | e :: rest => exprUses name e || exprsUse name rest

end

mutual

/-- Does `name` occur in an expression position that `check_statement`
hands to `check_expression`?  Let-statement initializers are never
checked, so occurrences there do not count. -/
def stmtUses (name : String) : Statement → Bool
  | .letStmt _ _ _ => false
  | .assign _ value => exprUses name value
  | .sectionStmt _ body => stmtsUse name body
  | .button _ body => stmtsUse name body
  | .ifStmt condition thenBranch elseBranch =>
    exprUses name condition || stmtsUse name thenBranch ||
      (match elseBranch with
      | some els => stmtsUse name els
      | none => false)
  | .forallStmt _ iterable body => exprUses name iterable || stmtsUse name body
  | .returnStmt e => exprUses name e
  | .functionCallStmt _ args => exprsUse name args
  | _ => false

/-- Any statement of the list uses the name. -/
def stmtsUse (name : String) : List Statement → Bool
  | [] => false
  | stmt :: rest => stmtUses name stmt || stmtsUse name rest

end

/-- Does `name` occur in a checked expression position anywhere in the
program (pages, tests, function bodies)? -/
def programUses (name : String) (p : Program) : Bool :=
  p.items.any (fun item =>
    match item with
    | .page pg => stmtsUse name pg.statements
    | .test t => stmtsUse name t.body
    | .functionDef f => stmtsUse name f.body
    | _ => false)

mutual

/-- Does any binder inside this statement introduce `name` (a `let`
binding or a `forall` loop variable, recursively)? -/
def stmtBinds (name : String) : Statement → Bool
  | .letStmt m _ _ => m = name
  | .sectionStmt _ body => stmtsBind name body
  | .button _ body => stmtsBind name body
  | .ifStmt _ thenBranch elseBranch =>
    stmtsBind name thenBranch ||
      (match elseBranch with
      | some els => stmtsBind name els
      | none => false)
  | .forallStmt var _ body => var = name || stmtsBind name body
  | _ => false

/-- Any statement of the list binds the name. -/
def stmtsBind (name : String) : List Statement → Bool
  | [] => false
  | stmt :: rest => stmtBinds name stmt || stmtsBind name rest

end

/-- Does any binder of the program introduce `name`: a top-level
table/function/external name, a function parameter, a `let`, or a
`forall` variable? -/
def programBinds (name : String) (p : Program) : Bool :=
  p.items.any (fun item =>
    match item with
    | .tableDef t => t.name = name
    | .functionDef f =>
      f.name = name || f.params.any (fun pa => pa.name = name) ||
        stmtsBind name f.body
    | .externalFunction e => e.name = name
    | .page pg => stmtsBind name pg.statements
    | .test t => stmtsBind name t.body)

/-- No scope of the chain binds `name`. -/
def ScopeFree (name : String) : Scope → Prop
  | .mk parent symbols _ =>
    alGet symbols name = none ∧
      (match parent with
      | some p => ScopeFree name p
      | none => True)

/-- No active scope (nor the global scope) can resolve `name`. -/
def TableFree (name : String) (st : SymbolTable) : Prop :=
  ScopeFree name st.global ∧ ∀ sc ∈ st.currentScopes, ScopeFree name sc

/-! ### Concrete example values used by counterexamples and witnesses -/

/-- A placeholder-table schema, as produced for a `table(A)` annotation. -/
def schemaA : IRTableSchema := IRTableSchema.new "A"

/-- Builder state binding `t1`, `t2` to table types and `n1`, `n2` to
`Int` (left operands of the `-` examples). -/
def bstC1 : BuildState :=
  { symbolTable := SymbolTable.new, keyCounter := 0,
    localVars := [("t1", .table schemaA), ("t2", .table schemaA),
      ("n1", .int), ("n2", .int)] }

/-- The program `page P { let x: int = _ }`: the placeholder occurs as an
expression (the let initializer). -/
def progC4 : Program :=
  Program.mk [.page (Page.mk "P"
    [.letStmt "x" (some .int) (some (.identifier "_"))])]

/-- The program `page P { x = _ }`: the placeholder occurs in a checked
expression position (an assignment value). -/
def progC4w : Program :=
  Program.mk [.page (Page.mk "P" [.assign "x" (.identifier "_")])]

/-- The program `page P { foo() }`: `foo` is referenced only as the callee
of a call statement and is never bound. -/
def progC8 : Program :=
  Program.mk [.page (Page.mk "P" [.functionCallStmt "foo" []])]

/-- The program `page P { x = y }`: `y` is referenced in expression
position and never bound. -/
def progC8w : Program :=
  Program.mk [.page (Page.mk "P" [.assign "x" (.identifier "y")])]

/-- The program `table User { } page P { let t = load_csv(User, "u.csv")
show(t) show(t) }`: two distinct `show` calls in one module. -/
def progC5 : Program :=
  Program.mk
    [ .tableDef (TableDef.mk "User" []),
      .page (Page.mk "P"
        [ .letStmt "t" none (some (.functionCall "load_csv"
            [.identifier "User", .stringLiteral "u.csv"])),
          .functionCallStmt "show" [.identifier "t"],
          .functionCallStmt "show" [.identifier "t"] ]) ]

/-- The IR node that both `show(t)` statements of `progC5` lower to. -/
def showNodeC5 : IRNode :=
  .exprStmt (.functionCall "show" [.var "t" .error] .unit)

/-- A program exercising every top-level item kind, for the item-count
witness. -/
def progC10 : Program :=
  Program.mk
    [ .tableDef (TableDef.mk "User" [Field.mk "id" .int [.key]]),
      .functionDef (FunctionDef.mk "f" [Parameter.mk "a" .int] .int
        [.returnStmt (.identifier "a")]),
      .externalFunction (ExternalFunction.mk "g" [] .int "m.py"),
      .page (Page.mk "P" [.title "hi"]),
      .test (Test.mk "t" [.text "ok"]) ]

/-- An `Int` variable symbol named `x` (outer binding of the shadowing
witness). -/
def symC7outer : Symbol :=
  { name := "x", symbolType := .int, kind := .variable,
    isInitialized := true, isMutable := true }

/-- A `String` variable symbol named `x` (inner, shadowing binding). -/
def symC7inner : Symbol :=
  { name := "x", symbolType := .string, kind := .variable,
    isInitialized := true, isMutable := true }

/-- A symbol table whose global scope binds `x` and with one active page
scope (empty), as after `define("x", …); push_scope(Page)`. -/
def stC7 : SymbolTable :=
  { global := .mk none [("x", symC7outer)] .global,
    currentScopes := [.mk (some (.mk none [("x", symC7outer)] .global)) [] .page] }

/-- Analyzer state with empty errors and symbol table, as at the start of
a statement check. -/
def semState0 : SemState :=
  { symbols := SymbolTable.new, errors := [] }

/-- Initial parser state over a token list (`Parser::new`). -/
def pInit (toks : List Token) : ParserState :=
  { tokens := toks, cur := 0, diags := [] }

/-- A builder state binding `t` with key counter 5 (for the counter
increment conjunct of the show-lowering theorem). -/
def bstC5show : BuildState :=
  { symbolTable := SymbolTable.new, keyCounter := 5, localVars := [("t", .error)] }

/-! ## Helper lemmas -/

theorem alContains_eq_isSome (l : List (String × Symbol)) (name : String) :
    alContains l name = (alGet l name).isSome := by
  induction l with
  | nil => rfl
  | cons p rest ih =>
    by_cases h : p.1 = name
    · simp [alContains, alGet, List.find?, h]
    · simpa [alContains, alGet, List.find?, h] using ih

theorem alGet_cons_self (rest : List (String × Symbol)) (name : String)
    (sym : Symbol) : alGet ((name, sym) :: rest) name = some sym := by
  simp [alGet, List.find?]

/-- `Scope::define` fails with `Redefinition` when the name is bound in
this exact scope. -/
theorem scope_define_err (sc : Scope) (name : String) (sym : Symbol)
    (h : (sc.lookupLocal name).isSome = true) :
    sc.define name sym = .error (.redefinition name) := by
  have hc : alContains sc.symbols name = true := by
    rw [alContains_eq_isSome]; exact h
  simp [Scope.define, hc]

/-- `Scope::define` succeeds by prepending the binding when the name is
not bound in this exact scope. -/
theorem scope_define_ok (sc : Scope) (name : String) (sym : Symbol)
    (h : (sc.lookupLocal name).isSome = false) :
    sc.define name sym = .ok (.mk sc.parent ((name, sym) :: sc.symbols) sc.kind) := by
  have hc : alContains sc.symbols name = false := by
    rw [alContains_eq_isSome]; exact h
  simp [Scope.define, hc]

/-- `SymbolTable::define` fails with `Redefinition` exactly when the
innermost active scope (global, with no active scope) binds the name. -/
theorem table_define_err (st : SymbolTable) (name : String) (sym : Symbol)
    (h : (st.currentScope.lookupLocal name).isSome = true) :
    st.define name sym = .error (.redefinition name) := by
  cases hcs : st.currentScopes with
  | nil =>
    have hg : st.currentScope = st.global := by
      simp [SymbolTable.currentScope, hcs]
    rw [hg] at h
    simp [SymbolTable.define, hcs, scope_define_err _ _ sym h]
  | cons top rest =>
    have ht : st.currentScope = top := by
      simp [SymbolTable.currentScope, hcs]
    rw [ht] at h
    simp [SymbolTable.define, hcs, scope_define_err _ _ sym h]

/-- `SymbolTable::define` succeeds when the innermost active scope does
not bind the name; the new binding is prepended to the innermost scope and
the ancestor chain (and, with active scopes, the global scope) are kept. -/
theorem table_define_ok (st : SymbolTable) (name : String) (sym : Symbol)
    (h : (st.currentScope.lookupLocal name).isSome = false) :
    ∃ st', st.define name sym = .ok st' ∧
      st'.currentScope =
        .mk st.currentScope.parent ((name, sym) :: st.currentScope.symbols)
          st.currentScope.kind ∧
      st'.currentScopes.tail = st.currentScopes.tail ∧
      (st.currentScopes ≠ [] → st'.global = st.global) := by
  cases hcs : st.currentScopes with
  | nil =>
    have hg : st.currentScope = st.global := by
      simp [SymbolTable.currentScope, hcs]
    rw [hg] at h
    refine ⟨{ st with global := (Scope.mk st.global.parent ((name, sym) :: st.global.symbols) st.global.kind) }, ?_, ?_, ?_, ?_⟩
    · simp [SymbolTable.define, hcs, scope_define_ok _ _ sym h]
    · simp [SymbolTable.currentScope, hcs]
    · simp [hcs]
    · exact fun hne => absurd rfl hne
  | cons top rest =>
    have ht : st.currentScope = top := by
      simp [SymbolTable.currentScope, hcs]
    rw [ht] at h
    refine ⟨{ st with currentScopes := (Scope.mk top.parent ((name, sym) :: top.symbols) top.kind :: rest) }, ?_, ?_, ?_, ?_⟩
    · simp [SymbolTable.define, hcs, scope_define_ok _ _ sym h]
    · simp [SymbolTable.currentScope, hcs]
    · rfl
    · intro _; rfl

/-- Looking up a name in a scope whose own map binds it returns that
binding. -/
theorem scope_lookup_head (parent : Option Scope) (syms : List (String × Symbol))
    (k : ScopeKind) (name : String) (sym : Symbol) :
    Scope.lookup (.mk parent ((name, sym) :: syms) k) name = some sym := by
  cases parent with
  | some p => rw [Scope.lookup.eq_1, alGet_cons_self]
  | none => rw [Scope.lookup.eq_2, alGet_cons_self]

/-- A successful `SymbolTable::define` makes `lookup` return the new
symbol. -/
theorem table_define_ok_lookup (st : SymbolTable) (name : String) (sym : Symbol)
    (h : (st.currentScope.lookupLocal name).isSome = false) :
    ∃ st', st.define name sym = .ok st' ∧
      st'.lookup name = some sym ∧
      st'.currentScope.parent = st.currentScope.parent ∧
      (st.currentScopes ≠ [] → st'.global = st.global) := by
  obtain ⟨st', hdef, hcur, _, hglob⟩ := table_define_ok st name sym h
  refine ⟨st', hdef, ?_, ?_, hglob⟩
  · show st'.currentScope.lookup name = some sym
    rw [hcur]
    exact scope_lookup_head _ _ _ _ _
  · rw [hcur]
    rfl

/-! ## C7 -/

/-- C7: `SymbolTable::define` fails with `Redefinition` exactly when the
name already exists in the innermost active scope (global when no scope is
active); defining a name that is absent from the innermost scope succeeds
even when an ancestor scope binds it (shadowing), and afterwards `lookup`
returns the new innermost binding while the ancestor chain of the current
scope (and, when scopes are active, the global scope) is unchanged. -/
theorem c7_define_redefinition_scoped (st : SymbolTable) (name : String)
    (sym : Symbol) :
    (st.define name sym = .error (.redefinition name) ↔
      (st.currentScope.lookupLocal name).isSome = true)
    ∧ ((st.currentScope.lookupLocal name).isSome = false →
      ∃ st', st.define name sym = .ok st' ∧
        st'.lookup name = some sym ∧
        st'.currentScope.parent = st.currentScope.parent ∧
        (st.currentScopes ≠ [] → st'.global = st.global)) := by
  constructor
  · constructor
    · intro herr
      by_cases h : (st.currentScope.lookupLocal name).isSome = true
      · exact h
      · obtain ⟨st', hok, _⟩ := table_define_ok_lookup st name sym
          (by simpa using h)
        rw [hok] at herr
        cases herr
    · intro h
      exact table_define_err st name sym h
  · intro h
    exact table_define_ok_lookup st name sym h

/-- C7 witness: with a global binding `x : Int` and an active empty page
scope, defining `x : String` succeeds (shadowing), lookup resolves to the
new binding, and the ancestor (global) binding is untouched. -/
theorem c7_define_redefinition_scoped_witness :
    (stC7.currentScope.lookupLocal "x").isSome = false ∧
    ∃ st', stC7.define "x" symC7inner = .ok st' ∧
      st'.lookup "x" = some symC7inner ∧
      st'.currentScope.parent = some (Scope.mk none [("x", symC7outer)] .global) ∧
      st'.global = Scope.mk none [("x", symC7outer)] .global := by
  refine ⟨rfl, ?_⟩
  obtain ⟨st', hok, hlook, hpar, hglob⟩ :=
    (c7_define_redefinition_scoped stC7 "x" symC7inner).2 rfl
  refine ⟨st', hok, hlook, by rw [hpar]; rfl, ?_⟩
  rw [hglob (by simp [stC7])]
  rfl

/-! ## C6 helper lemmas -/

theorem countTM_append (a b : List SemanticError) :
    countTM (a ++ b) = countTM a + countTM b := by
  simp [countTM, List.countP_append]

/-- `defineSym` either leaves the errors unchanged or appends exactly one
`Redefinition`; in both cases the `TypeMismatch` count is unchanged. -/
theorem defineSym_errors (s : SemState) (name : String) (sym : Symbol) :
    (s.defineSym name sym).errors = s.errors ∨
      (s.defineSym name sym).errors = s.errors ++ [.redefinition name] := by
  unfold SemState.defineSym
  cases s.symbols.define name sym with
  | ok st' => left; rfl
  | error e => right; rfl

theorem countTM_defineSym (s : SemState) (name : String) (sym : Symbol) :
    countTM (s.defineSym name sym).errors = countTM s.errors := by
  rcases defineSym_errors s name sym with h | h <;> rw [h]
  rw [countTM_append]
  simp [countTM]

/-- With the name absent from the innermost scope, `defineSym` succeeds:
the errors are untouched and lookup resolves to the new symbol. -/
theorem defineSym_ok (s : SemState) (name : String) (sym : Symbol)
    (h : (s.symbols.currentScope.lookupLocal name).isSome = false) :
    (s.defineSym name sym).errors = s.errors ∧
      (s.defineSym name sym).symbols.lookup name = some sym := by
  obtain ⟨st', hdef, hlook, _, _⟩ := table_define_ok_lookup s.symbols name sym h
  unfold SemState.defineSym
  rw [hdef]
  exact ⟨rfl, hlook⟩

/-! ## C6 -/

/-- C6: for `let x: T = v`, semantic analysis defines the variable (type
inferred from the initializer), then records exactly one `TypeMismatch`
naming the rendered annotation `T` and the rendered inferred type when the
two disagree structurally (`types_compatible` is plain equality, so there
is no implicit widening), and records none when they agree; and for every
`let` form, when the name is new in the innermost scope the defined
variable is marked initialized exactly when an initializer exists. -/
theorem c6_let_type_mismatch (s : SemState) (name : String) (T : Ty) (v : Expr) :
    (typesCompatible T (inferExprType (letDefState s name v) v) = false →
      checkStmt s (.letStmt name (some T) (some v)) =
        (letDefState s name v).pushErr
          (.typeMismatch (reprTy T)
            (reprTy (inferExprType (letDefState s name v) v))))
    ∧ (typesCompatible T (inferExprType (letDefState s name v) v) = true →
      checkStmt s (.letStmt name (some T) (some v)) = letDefState s name v)
    ∧ (countTM (checkStmt s (.letStmt name (some T) (some v))).errors =
      countTM s.errors +
        (if typesCompatible T (inferExprType (letDefState s name v) v) then 0
          else 1))
    ∧ (∀ (ta : Option Ty) (v? : Option Expr),
      (s.symbols.currentScope.lookupLocal name).isSome = false →
      ((checkStmt s (.letStmt name ta v?)).symbols.lookup name).map
          Symbol.isInitialized = some v?.isSome) := by
  refine ⟨?_, ?_, ?_, ?_⟩
  · intro h
    simp only [letDefState] at h
    simp [checkStmt, letDefState, h]
  · intro h
    simp only [letDefState] at h
    simp [checkStmt, letDefState, h]
  · by_cases h : typesCompatible T (inferExprType (letDefState s name v) v)
    · simp only [h, if_true]
      simp only [letDefState] at h
      simp [checkStmt, h, countTM_defineSym]
    · simp only [eq_false h, if_false]
      simp only [Bool.not_eq_true] at h
      simp only [letDefState] at h
      simp [checkStmt, h, SemState.pushErr, countTM_append, countTM_defineSym]
      simp [countTM]
  · intro ta v? h
    cases v? with
    | some v0 =>
      have hd := defineSym_ok s name
        { name := name, symbolType := inferExprType s v0, kind := .variable,
          isInitialized := true, isMutable := false } h
      cases ta with
      | some T0 =>
        by_cases hc : typesCompatible T0 (inferExprType (s.defineSym name
          { name := name, symbolType := inferExprType s v0, kind := .variable,
            isInitialized := true, isMutable := false }) v0)
        · simp [checkStmt, hc, hd.2]
        · simp only [Bool.not_eq_true] at hc
          simp [checkStmt, hc, SemState.pushErr, hd.2]
      | none =>
        simp [checkStmt, hd.2]
    | none =>
      cases ta with
      | some T0 =>
        have hd := defineSym_ok s name
          { name := name, symbolType := T0, kind := .variable,
            isInitialized := false, isMutable := false } h
        simp [checkStmt, hd.2]
      | none =>
        have hd := defineSym_ok { s with
            errors := s.errors ++ [.missingTypeOrInitializer name] } name
          { name := name, symbolType := Ty.int, kind := .variable,
            isInitialized := false, isMutable := false } h
        simp [checkStmt, SemState.pushErr, hd.2]

/-- C6 witness: `let x: float = 1` (an Int literal against a Float
annotation) records exactly one `TypeMismatch` naming Float and Int, and
the variable is initialized; `let y: float` alone defines `y`
uninitialized. -/
theorem c6_let_type_mismatch_witness :
    (checkStmt semState0 (.letStmt "x" (some .float) (some (.intLiteral 1)))).errors
        = [.typeMismatch "Float" "Int"] ∧
    countTM (checkStmt semState0
        (.letStmt "x" (some .float) (some (.intLiteral 1)))).errors = 1 ∧
    ((checkStmt semState0 (.letStmt "x" (some .float)
        (some (.intLiteral 1)))).symbols.lookup "x").map Symbol.isInitialized
        = some true ∧
    ((checkStmt semState0 (.letStmt "y" (some .float)
        none)).symbols.lookup "y").map Symbol.isInitialized = some false := by
  have h := c6_let_type_mismatch semState0 "x" .float (.intLiteral 1)
  have h1 := h.1 (by decide)
  have h3 := h.2.2.1
  have h4 := h.2.2.2 (some .float) (some (.intLiteral 1)) (by decide)
  have h5 := (c6_let_type_mismatch semState0 "y" .float
    (.intLiteral 1)).2.2.2 (some .float) none (by decide)
  refine ⟨?_, ?_, ?_, ?_⟩
  · rw [h1]; rfl
  · rw [h.2.2.1]; decide
  · exact h4
  · exact h5

/-! ## C1 -/

/-- C1 counterexample: the `-` token parses to `BinaryOp::Subtract`, and a
Subtract whose lowered left operand is Table-typed does NOT lower to the
set-difference node: it lowers to an ordinary arithmetic Sub binary-op
node of type Error. -/
theorem c1_minus_token_counterexample :
    (parseExpression 64 (pInit (tokenizeRaw "t1 - t2").1)).1 =
      some (.binaryOp .subtract (.identifier "t1") (.identifier "t2"))
    ∧ lowerExpr bstC1 (.binaryOp .subtract (.identifier "t1") (.identifier "t2"))
      = .ok (.binaryOp .sub (.var "t1" (.table schemaA))
          (.var "t2" (.table schemaA)) .error, bstC1)
    ∧ (IRExpr.var "t1" (.table schemaA)).getType.isTable = true
    ∧ isSetDifference (.binaryOp .sub (.var "t1" (.table schemaA))
        (.var "t2" (.table schemaA)) .error) = false := by
  exact ⟨rfl, rfl, rfl, rfl⟩

/-- C1 (amended): `lower_expr` decides the dispatch in one place, on the
AST operator and the lowered left operand's type: `Minus` with a
Table-typed left operand produces the set-difference node typed as the
left operand; `Minus` otherwise produces a `SetMinus` binary-op node;
`Subtract` — the operator the parser produces for the `-` token — always
produces an ordinary arithmetic `Sub` binary-op node; `Union` and
`Intersect` always produce their set-operation nodes typed as the left
operand. -/
theorem c1_lower_minus_dispatch (bst bst1 bst2 : BuildState) (l r : Expr)
    (lIR rIR : IRExpr)
    (hl : lowerExpr bst l = .ok (lIR, bst1))
    (hr : lowerExpr bst1 r = .ok (rIR, bst2)) :
    (lIR.getType.isTable = true →
      lowerExpr bst (.binaryOp .minus l r) =
        .ok (.minus lIR rIR lIR.getType, bst2))
    ∧ (lIR.getType.isTable = false →
      lowerExpr bst (.binaryOp .minus l r) =
        .ok (.binaryOp .setMinus lIR rIR lIR.getType, bst2))
    ∧ lowerExpr bst (.binaryOp .subtract l r) =
      .ok (.binaryOp .sub lIR rIR
        (if lIR.getType.isNumeric && rIR.getType.isNumeric then lIR.getType
          else .error), bst2)
    ∧ lowerExpr bst (.binaryOp .union l r) =
      .ok (.union lIR rIR lIR.getType, bst2)
    ∧ lowerExpr bst (.binaryOp .intersect l r) =
      .ok (.intersect lIR rIR lIR.getType, bst2) := by
  refine ⟨?_, ?_, ?_, ?_, ?_⟩
  · intro h
    simp [lowerExpr, hl, hr, h]
  · intro h
    simp [lowerExpr, hl, hr, h, inferBinaryOpType, BinOp.fromAst]
  · simp only [lowerExpr, hl, hr, inferBinaryOpType]
    by_cases h : lIR.getType.isNumeric && rIR.getType.isNumeric
    · simp [h, BinOp.fromAst]
    · simp only [Bool.not_eq_true] at h
      simp [h, BinOp.fromAst]
  · simp [lowerExpr, hl, hr]
  · simp [lowerExpr, hl, hr]

/-- C1 witness: instantiating the dispatch theorem with table-typed
`t1 - t2` operands (Minus lowers to set-difference typed `Table A`;
Subtract lowers to the arithmetic node). -/
theorem c1_lower_minus_dispatch_witness :
    lowerExpr bstC1 (.binaryOp .minus (.identifier "t1") (.identifier "t2")) =
      .ok (.minus (.var "t1" (.table schemaA)) (.var "t2" (.table schemaA))
        (.table schemaA), bstC1)
    ∧ lowerExpr bstC1 (.binaryOp .subtract (.identifier "n1") (.identifier "n2")) =
      .ok (.binaryOp .sub (.var "n1" .int) (.var "n2" .int) .int, bstC1) := by
  constructor
  · have h := (c1_lower_minus_dispatch bstC1 bstC1 bstC1
      (.identifier "t1") (.identifier "t2")
      (.var "t1" (.table schemaA)) (.var "t2" (.table schemaA)) rfl rfl).1 rfl
    exact h
  · have h := (c1_lower_minus_dispatch bstC1 bstC1 bstC1
      (.identifier "n1") (.identifier "n2")
      (.var "n1" .int) (.var "n2" .int) rfl rfl).2.2.1
    simpa using h

/-! ## C5 -/

/-- C5: the failing input `table User { } page P { let t = load_csv(User,
"u.csv") show(t) show(t) }` builds successfully, but the two `show` calls
lower to two IDENTICAL keyless `FunctionCall` expression statements (no
`ShowTable` node, no key); the internal key counter is incremented per
`show` call yet never reaches the produced IR. -/
theorem c5_show_lowering_keyless :
    (build progC5).toOption.map IRModule.items = some
      [ .tableDef "User" (IRTableSchema.new "User"),
        .pageDef "P"
          [ .binding "t" .error (some (.functionCall "load_csv"
              [.var "User" (.table (IRTableSchema.new "User")),
                .literal (.string "u.csv") .string] .error)),
            showNodeC5, showNodeC5 ] ]
    ∧ showNodeC5 = .exprStmt (.functionCall "show" [.var "t" .error] .unit)
    ∧ lowerFunctionCall bstC5show "show" [.identifier "t"] =
      .ok (.functionCall "show" [.var "t" .error] .unit,
        { bstC5show with keyCounter := 6 }) := by
  exact ⟨rfl, rfl, rfl⟩

/-! ## C3 -/

/-- C3: the failing input `page Test { forall u in us { } }` lexes fine
(the `forall` keyword token sits at 1:13), but `parse` rejects it:
`parse_statement` has no arm for the `Forall` token, so the statement
falls into the catch-all and the parse fails with exactly one E2001
"Unexpected token in statement" at the `forall` token — no `Forall`
statement node is produced. -/
theorem c3_forall_statement_rejected :
    ((tokenizeRaw "page Test { forall u in us { } }").1.get? 3 =
      some (Token.mk .forallKw 1 13))
    ∧ (tokenizeRaw "page Test { forall u in us { } }").2.diags = []
    ∧ (parseTokens (tokenizeRaw "page Test { forall u in us { } }").1).1 =
      .error [Diagnostic.mkError .e2001 "Unexpected token in statement"
        (Location.mk 1 13)] := by
  exact ⟨rfl, rfl, rfl⟩

/-! ## C2 -/

/-- C2 counterexample: for `t[x+1]` the token after `[` is a bare
identifier, so the parser commits to column selection and, on seeing `+`,
fails with E2001 "Expected ',' or ']' in column selection" — it does not
parse `x+1` as an index and produces no `Index` expression. -/
theorem c2_bracket_index_counterexample :
    (parseExpression 64 (pInit (tokenizeRaw "t[x+1]").1)).1 = none
    ∧ (parseExpression 64 (pInit (tokenizeRaw "t[x+1]").1)).2.diags =
      [Diagnostic.mkError .e2001 "Expected ',' or ']' in column selection"
        (Location.mk 1 4)]
    ∧ (tokenizeRaw "t[x+1]").2.diags = [] := by
  exact ⟨rfl, rfl, rfl⟩

/-- C2 (amended): the bracket-suffix step commits on a single token of
lookahead.  With the `[` consumed: a bare identifier `c` followed by `]`
yields `ColumnSelect [c]`; a bare identifier followed by `,` collects the
name list and yields `ColumnSelect` of those names; a bare identifier
followed by anything else is an E2001 error (no index parse is
attempted); only when the next token is not a bare identifier is a full
expression parsed and wrapped as `Index`. -/
theorem c2_bracket_suffix_dispatch (fuel : Nat) (e : Expr) (st : ParserState) :
    (∀ c, st.peek.tokenType = .identifier c → st.isAtEnd = false →
      ((st.advance.check .comma = false → st.advance.check .rightBracket = true →
        parseBracketSuffix (fuel+1) e st =
          (some (.columnSelect e [c]), st.advance.advance))
      ∧ (st.advance.check .comma = true →
        ∀ cols st2, parseColumnList fuel [c] st.advance = (some cols, st2) →
          st2.check .rightBracket = true →
          parseBracketSuffix (fuel+1) e st =
            (some (.columnSelect e cols), st2.advance))
      ∧ (st.advance.check .comma = false → st.advance.check .rightBracket = false →
        parseBracketSuffix (fuel+1) e st =
          (none, st.advance.addError .e2001
            "Expected ',' or ']' in column selection"))))
    ∧ (st.checkIdentifier = false →
      ∀ ix st2, parseExpression fuel st = (some ix, st2) →
        st2.check .rightBracket = true →
        parseBracketSuffix (fuel+1) e st = (some (.indexExpr e ix), st2.advance)) := by
  constructor
  · intro c hpeek hend
    have hci : st.checkIdentifier = true := by
      simp [ParserState.checkIdentifier, hend, hpeek]
    have hei : st.expectIdentifier = (some c, st.advance) := by
      simp [ParserState.expectIdentifier, hpeek]
    refine ⟨?_, ?_, ?_⟩
    · intro hcomma hrb
      simp [parseBracketSuffix, hci, hei, hcomma, hrb, ParserState.expect]
    · intro hcomma cols st2 hcols hrb
      simp [parseBracketSuffix, hci, hei, hcomma, hcols, hrb, ParserState.expect]
    · intro hcomma hrb
      simp [parseBracketSuffix, hci, hei, hcomma, hrb]
  · intro hci ix st2 hix hrb
    simp [parseBracketSuffix, hci, hix, hrb, ParserState.expect]

/-- C2 witness: instantiating the dispatch theorem on the token streams of
`a]`, `a, b]` and `0]` (after the `[`). -/
theorem c2_bracket_suffix_dispatch_witness :
    parseBracketSuffix 16 (.identifier "t")
      (pInit [Token.mk (.identifier "a") 1 1, Token.mk .rightBracket 1 2,
        Token.mk .eof 1 3]) =
      (some (.columnSelect (.identifier "t") ["a"]),
        (pInit [Token.mk (.identifier "a") 1 1, Token.mk .rightBracket 1 2,
          Token.mk .eof 1 3]).advance.advance)
    ∧ (parseBracketSuffix 16 (.identifier "t")
        (pInit [Token.mk (.identifier "a") 1 1, Token.mk .comma 1 2,
          Token.mk (.identifier "b") 1 4, Token.mk .rightBracket 1 5,
          Token.mk .eof 1 6])).1 =
      some (.columnSelect (.identifier "t") ["a", "b"])
    ∧ (parseBracketSuffix 16 (.identifier "t")
        (pInit [Token.mk (.intLiteral 0) 1 1, Token.mk .rightBracket 1 2,
          Token.mk .eof 1 3])).1 =
      some (.indexExpr (.identifier "t") (.intLiteral 0)) := by
  refine ⟨?_, ?_, ?_⟩
  · exact (((c2_bracket_suffix_dispatch 15 (.identifier "t")
      (pInit [Token.mk (.identifier "a") 1 1, Token.mk .rightBracket 1 2,
        Token.mk .eof 1 3])).1 "a" rfl rfl).1 rfl rfl)
  · rw [(((c2_bracket_suffix_dispatch 15 (.identifier "t")
      (pInit [Token.mk (.identifier "a") 1 1, Token.mk .comma 1 2,
        Token.mk (.identifier "b") 1 4, Token.mk .rightBracket 1 5,
        Token.mk .eof 1 6])).1 "a" rfl rfl).2.1 rfl ["a", "b"]
      { pInit [Token.mk (.identifier "a") 1 1, Token.mk .comma 1 2,
          Token.mk (.identifier "b") 1 4, Token.mk .rightBracket 1 5,
          Token.mk .eof 1 6] with cur := 3 } rfl rfl)]
  · rw [((c2_bracket_suffix_dispatch 15 (.identifier "t")
      (pInit [Token.mk (.intLiteral 0) 1 1, Token.mk .rightBracket 1 2,
        Token.mk .eof 1 3])).2 rfl (.intLiteral 0)
      { pInit [Token.mk (.intLiteral 0) 1 1, Token.mk .rightBracket 1 2,
          Token.mk .eof 1 3] with cur := 1 } rfl rfl)]

/-! ## C10 -/

/-- Lowering one program item yields an IR item of the matching kind and
name. -/
theorem lowerItem_matches (bst : BuildState) (item : ProgramItem)
    (ir : IRItem) (bst' : BuildState)
    (h : lowerItem bst item = .ok (ir, bst')) : itemMatches item ir := by
  cases item with
  | tableDef t =>
    simp only [lowerItem, lowerTableDef] at h
    cases hf : lowerFields (IRTableSchema.new t.name) t.fields with
    | error e => rw [hf] at h; cases h
    | ok schema =>
      rw [hf] at h
      cases h
      simp [itemMatches]
  | page pg =>
    simp only [lowerItem, lowerPage] at h
    cases hf : lowerStmts { bst with localVars := [] } pg.statements with
    | error e => rw [hf] at h; cases h
    | ok r =>
      rw [hf] at h
      cases h
      simp [itemMatches]
  | functionDef f =>
    simp only [lowerItem, lowerFunctionDef] at h
    cases hf : lowerStmts ((f.params.map (fun p =>
        IRParam.mk p.name (typeFromAst p.paramType))).foldl (fun bst p =>
          { bst with localVars := lvInsert bst.localVars p.name p.ty })
        { bst with localVars := [] }) f.body with
    | error e => rw [hf] at h; cases h
    | ok r =>
      rw [hf] at h
      cases h
      simp [itemMatches]
  | externalFunction e =>
    simp only [lowerItem, lowerExternalFunction] at h
    cases h
    simp [itemMatches]
  | test t =>
    simp only [lowerItem, lowerTest] at h
    cases hf : lowerStmts { bst with localVars := [] } t.body with
    | error e => rw [hf] at h; cases h
    | ok r =>
      rw [hf] at h
      cases h
      simp [itemMatches]

/-- `lowerItems` produces exactly one IR item per program item, in order,
of matching kind and name. -/
theorem lowerItems_spec (items : List ProgramItem) :
    ∀ (bst : BuildState) (irs : List IRItem) (bst' : BuildState),
    lowerItems bst items = .ok (irs, bst') →
    irs.length = items.length ∧
      ∀ i (hi : i < items.length) (hm : i < irs.length),
        itemMatches (items.get ⟨i, hi⟩) (irs.get ⟨i, hm⟩) := by
  induction items with
  | nil =>
    intro bst irs bst' h
    simp only [lowerItems] at h
    cases h
    exact ⟨rfl, fun i hi => absurd hi (by simp)⟩
  | cons item rest ih =>
    intro bst irs bst' h
    simp only [lowerItems] at h
    rcases hli : lowerItem bst item with e | ⟨ir1, bst1⟩ <;> simp only [hli] at h
    · cases h
    · rcases hls : lowerItems bst1 rest with e | ⟨restIR, bst2⟩ <;>
        simp only [hls] at h
      · cases h
      · cases h
        obtain ⟨hlen, hidx⟩ := ih bst1 restIR _ hls
        constructor
        · simp [hlen]
        · intro i hi hm
          cases i with
          | zero =>
            exact lowerItem_matches bst item ir1 bst1 hli
          | succ j =>
            exact hidx j (by simpa using hi) (by simpa using hm)

/-- C10: whenever `IRBuilder::build` succeeds, the produced module has
exactly one IR item per program item, in the same order, each of the
matching kind and name. -/
theorem c10_build_item_count (p : Program) (m : IRModule)
    (h : build p = .ok m) :
    m.items.length = p.items.length ∧
      ∀ i (hi : i < p.items.length) (hm : i < m.items.length),
        itemMatches (p.items.get ⟨i, hi⟩) (m.items.get ⟨i, hm⟩) := by
  unfold build at h
  by_cases he : (analyzeState p).errors.isEmpty
  · simp only [he, if_true] at h
    cases hl : lowerItems
        { symbolTable := (analyzeState p).symbols, keyCounter := 0,
          localVars := [] } p.items with
    | error e => rw [hl] at h; cases h
    | ok r =>
      rw [hl] at h
      cases h
      obtain ⟨hlen, hidx⟩ := lowerItems_spec p.items _ r.1 r.2 (by rw [hl])
      exact ⟨hlen, hidx⟩
  · simp only [he, if_false] at h
    cases h

/-- C10 witness: the five-item program (table, function, external, page,
test) builds to a module with five items. -/
theorem c10_build_item_count_witness :
    (build progC10).toOption.map (fun m => m.items.length) = some 5 := by
  have hb : (build progC10).isOk = true := by decide
  obtain ⟨m, hm⟩ : ∃ m, build progC10 = .ok m := by
    cases h : build progC10 with
    | ok m => exact ⟨m, rfl⟩
    | error e => rw [h] at hb; cases hb
  have h := c10_build_item_count progC10 m hm
  rw [hm]
  simp only [Except.toOption, Option.map]
  rw [h.1]
  rfl

/-! ## C4 and C8 -/

/-- `check_expression` on an identifier with no resolvable binding records
exactly one `UndefinedVariable` for that name. -/
theorem checkExpr_undefined_identifier (s : SemState) (name : String)
    (h : s.symbols.lookup name = none) :
    checkExpr s (.identifier name) = s.pushErr (.undefinedVariable name) := by
  simp [checkExpr, h]

/-- `check_function_call` never inspects the callee name: it is exactly a
check of the argument list. -/
theorem checkCall_ignores_callee (s : SemState) (name : String)
    (args : List Expr) : checkCall s name args = checkExprs s args := by
  induction args generalizing s with
  | nil => rfl
  | cons a rest ih => simp [checkCall, checkExprs, ih]

/-- C4 counterexample: in `page P { let x: int = _ }` the placeholder `_`
occurs as an expression (the `let` initializer), yet `analyze` succeeds
— `check_statement` never hands let initializers to `check_expression` —
and the full `build` pipeline succeeds as well, contradicting the claim
that analysis (and hence building) fails on every program in which `_`
occurs as an expression. -/
theorem c4_placeholder_counterexample :
    progC4 = Program.mk [.page (Page.mk "P"
      [.letStmt "x" (some .int) (some (.identifier "_"))])]
    ∧ analyze progC4 = .ok ()
    ∧ (build progC4).isOk = true :=
  ⟨rfl, rfl, rfl⟩

/-- C4 (amended): the lexer tokenizes `_` as an ordinary `Identifier`
token (the dedicated `Underscore` token kind is never produced) and the
parser accepts it as an identifier expression; `check_expression` treats
`_` as an ordinary identifier lookup with no special case, recording
`UndefinedVariable "_"` whenever no binding resolves it, while the IR
builder's own expression lowering special-cases `_` into an untyped
variable node with no lookup at all.  Analysis therefore fails only when
`_` occurs in a position the checker actually visits — let-statement
initializers are never visited — as on `page P { x = _ }`, where analysis
and the build both fail with `UndefinedVariable "_"` among the errors. -/
theorem c4_placeholder_ordinary_lookup :
    (tokenizeRaw "_").1 =
      [Token.mk (.identifier "_") 1 1, Token.mk .eof 1 2]
    ∧ (parseExpression 64 (pInit (tokenizeRaw "_").1)).1 =
        some (.identifier "_")
    ∧ (∀ s : SemState, s.symbols.lookup "_" = none →
        checkExpr s (.identifier "_") = s.pushErr (.undefinedVariable "_"))
    ∧ (∀ bst : BuildState,
        lowerExpr bst (.identifier "_") = .ok (.var "_" .error, bst))
    ∧ (analyzeState progC4w).errors =
        [.undefinedVariable "x", .undefinedVariable "_"]
    ∧ analyze progC4w =
        .error [.undefinedVariable "x", .undefinedVariable "_"]
    ∧ (build progC4w).isOk = false := by
  refine ⟨rfl, rfl, ?_, ?_, rfl, rfl, rfl⟩
  · intro s h
    exact checkExpr_undefined_identifier s "_" h
  · intro bst
    simp [lowerExpr]

/-- C4 witness: the placeholder-lookup conjunct instantiated at the empty
analyzer state, where `_` resolves to nothing. -/
theorem c4_placeholder_ordinary_lookup_witness :
    checkExpr semState0 (.identifier "_") =
      semState0.pushErr (.undefinedVariable "_") :=
  c4_placeholder_ordinary_lookup.2.2.1 semState0 rfl

/-- C8 counterexample: in `page P { foo() }` the name `foo` is referenced
only as the callee of a call statement and no binding ever introduces it,
yet `analyze` succeeds: `check_function_call` deliberately tolerates
unknown callees ("might be a builtin") and checks only the arguments, so
callee-only references never yield `UndefinedVariable`. -/
theorem c8_unknown_callee_counterexample :
    progC8 = Program.mk [.page (Page.mk "P" [.functionCallStmt "foo" []])]
    ∧ programBinds "foo" progC8 = false
    ∧ analyze progC8 = .ok () :=
  ⟨rfl, rfl, rfl⟩

/-- C8 (amended): an identifier visited by `check_expression` with no
resolvable binding is reported as `UndefinedVariable` — on
`page P { x = y }` analysis fails with `UndefinedVariable` for both the
unbound assignment target `x` and the unbound right-hand side `y` — but
callee names are exempt: `check_function_call` is exactly a check of the
argument list and never inspects the callee, so a name referenced only as
a callee is never reported. -/
theorem c8_undefined_variable_reported :
    (∀ (s : SemState) (n : String), s.symbols.lookup n = none →
      checkExpr s (.identifier n) = s.pushErr (.undefinedVariable n))
    ∧ (∀ (s : SemState) (name : String) (args : List Expr),
        checkCall s name args = checkExprs s args)
    ∧ (analyzeState progC8w).errors =
        [.undefinedVariable "x", .undefinedVariable "y"]
    ∧ analyze progC8w =
        .error [.undefinedVariable "x", .undefinedVariable "y"] := by
  refine ⟨?_, ?_, rfl, rfl⟩
  · intro s n h
    exact checkExpr_undefined_identifier s n h
  · intro s name args
    exact checkCall_ignores_callee s name args

/-- C8 witness: the undefined-identifier conjunct instantiated at the
empty analyzer state and the name `y`, and the callee-exemption conjunct
at a call to the unbound `foo`. -/
theorem c8_undefined_variable_reported_witness :
    checkExpr semState0 (.identifier "y") =
      semState0.pushErr (.undefinedVariable "y")
    ∧ checkCall semState0 "foo" [.intLiteral 1] =
        checkExprs semState0 [.intLiteral 1] :=
  ⟨c8_undefined_variable_reported.1 semState0 "y" rfl,
    c8_undefined_variable_reported.2.1 semState0 "foo" [.intLiteral 1]⟩

/-! ## C9: lexer error tolerance -/

theorem lineColAt_zero (full : List Char) : lineColAt full 0 = (1, 1) := rfl

theorem lineColAt_succ (full : List Char) (p : Nat) (c : Char)
    (h : full.get? p = some c) :
    lineColAt full (p + 1) = lcStep (lineColAt full p) c := by
  rw [List.get?_eq_getElem?] at h
  simp [lineColAt, List.take_succ, h]

theorem currentChar_get (st : LexState) (h : st.pos < st.full.length) :
    st.full.get? st.pos = some st.currentChar := by
  have hg : st.full.get? st.pos = some (st.full.get ⟨st.pos, h⟩) :=
    List.get?_eq_get h
  rw [List.get?_eq_getElem?] at hg
  simp [LexState.currentChar, List.getD, hg]

theorem currentChar_at_end (st : LexState) (h : st.full.length ≤ st.pos) :
    st.currentChar = '\x00' := by
  have hg : st.full.get? st.pos = none := List.get?_eq_none.mpr h
  rw [List.get?_eq_getElem?] at hg
  simp [LexState.currentChar, List.getD, hg]

theorem advance_full (st : LexState) : st.advance.full = st.full := by
  simp only [LexState.advance]
  split <;> (try split) <;> rfl

theorem advance_diags (st : LexState) : st.advance.diags = st.diags := by
  simp only [LexState.advance]
  split <;> (try split) <;> rfl

theorem advance_pos (st : LexState) (h : st.pos < st.full.length) :
    st.advance.pos = st.pos + 1 := by
  simp only [LexState.advance, if_pos h]
  split <;> rfl

theorem advance_at_end (st : LexState) (h : st.full.length ≤ st.pos) :
    st.advance = st := by
  simp only [LexState.advance]
  rw [if_neg (by omega)]

theorem advance_pos_le (st : LexState) : st.pos ≤ st.advance.pos := by
  by_cases h : st.pos < st.full.length
  · rw [advance_pos st h]; omega
  · rw [advance_at_end st (by omega)]

theorem advance_inv (st : LexState) (hI : LexInv st) : LexInv st.advance := by
  by_cases h : st.pos < st.full.length
  · have hc := currentChar_get st h
    constructor
    · rw [advance_pos st h, advance_full st]; omega
    · rw [advance_full st, advance_pos st h,
        lineColAt_succ st.full st.pos st.currentChar hc, ← hI.2]
      simp only [LexState.advance, if_pos h]
      by_cases hnl : st.full.getD st.pos '\x00' = '\n'
      · have : st.currentChar = '\n' := hnl
        rw [if_pos hnl]
        simp [lcStep, this]
      · have : st.currentChar ≠ '\n' := hnl
        rw [if_neg hnl]
        simp [lcStep, this]
  · rw [advance_at_end st (by omega)]; exact hI

theorem addError_full (st : LexState) (code msg l c) :
    (st.addError code msg l c).full = st.full := rfl

theorem addError_pos (st : LexState) (code msg l c) :
    (st.addError code msg l c).pos = st.pos := rfl

theorem addError_diags (st : LexState) (code msg l c) :
    (st.addError code msg l c).diags =
      st.diags ++ [Diagnostic.mkError code msg (Location.mk l c)] := rfl

theorem addError_inv (st : LexState) (hI : LexInv st) (code msg l c) :
    LexInv (st.addError code msg l c) := hI

theorem skipWhitespace_ok (fuel : Nat) : ∀ (st : LexState), LexInv st →
    (skipWhitespace fuel st).full = st.full ∧
    (skipWhitespace fuel st).diags = st.diags ∧
    LexInv (skipWhitespace fuel st) ∧
    st.pos ≤ (skipWhitespace fuel st).pos := by
  induction fuel with
  | zero => intro st hI; exact ⟨rfl, rfl, hI, le_refl _⟩
  | succ f ih =>
    intro st hI
    rw [skipWhitespace]
    split
    · obtain ⟨h1, h2, h3, h4⟩ := ih st.advance (advance_inv st hI)
      refine ⟨h1.trans (advance_full st), h2.trans (advance_diags st), h3, ?_⟩
      exact le_trans (advance_pos_le st) h4
    · exact ⟨rfl, rfl, hI, le_refl _⟩

theorem skipComment_ok (fuel : Nat) : ∀ (st : LexState), LexInv st →
    (skipComment fuel st).full = st.full ∧
    (skipComment fuel st).diags = st.diags ∧
    LexInv (skipComment fuel st) ∧
    st.pos ≤ (skipComment fuel st).pos := by
  induction fuel with
  | zero => intro st hI; exact ⟨rfl, rfl, hI, le_refl _⟩
  | succ f ih =>
    intro st hI
    rw [skipComment]
    split
    · obtain ⟨h1, h2, h3, h4⟩ := ih st.advance (advance_inv st hI)
      refine ⟨h1.trans (advance_full st), h2.trans (advance_diags st), h3, ?_⟩
      exact le_trans (advance_pos_le st) h4
    · exact ⟨rfl, rfl, hI, le_refl _⟩

theorem skipComment_progress (fuel : Nat) (st : LexState) (hI : LexInv st)
    (hf : 1 ≤ fuel) (hend : st.isAtEnd = false)
    (hch : st.currentChar ≠ '\n') :
    st.pos + 1 ≤ (skipComment fuel st).pos := by
  obtain ⟨f, rfl⟩ : ∃ f, fuel = f + 1 := ⟨fuel - 1, by omega⟩
  rw [skipComment]
  rw [if_pos (by simp [hend, hch])]
  have h4 := (skipComment_ok f st.advance (advance_inv st hI)).2.2.2
  have hlt : st.pos < st.full.length := by
    simp only [LexState.isAtEnd, decide_eq_false_iff_not, not_le] at hend
    exact hend
  rw [advance_pos st hlt] at h4
  exact h4

theorem readStringLoop_ok (fuel : Nat) : ∀ (value : String) (st : LexState),
    LexInv st → st.full.length - st.pos ≤ fuel →
    let r := readStringLoop fuel value st
    r.2.full = st.full ∧ r.2.diags = st.diags ∧ LexInv r.2 ∧
    st.pos ≤ r.2.pos ∧
    (r.2.isAtEnd = true ∨ r.2.currentChar = '"') := by
  induction fuel with
  | zero =>
    intro value st hI hF
    rw [readStringLoop]
    dsimp only
    refine ⟨rfl, rfl, hI, le_refl _, Or.inl ?_⟩
    simp only [LexState.isAtEnd, decide_eq_true_eq]
    omega
  | succ f ih =>
    intro value st hI hF
    rw [readStringLoop]
    dsimp only
    split
    · rename_i hguard
      simp only [Bool.and_eq_true, Bool.not_eq_true', decide_eq_true_eq] at hguard
      have hlt : st.pos < st.full.length := by
        have := hguard.1
        simp only [LexState.isAtEnd, decide_eq_false_iff_not, not_le] at this
        omega
      split
      · -- escape: consume the backslash, then maybe the escaped char
        split
        · rename_i hend2
          simp only [Bool.not_eq_true'] at hend2
          have hI1 := advance_inv st hI
          have hI2 := advance_inv st.advance hI1
          have hlt2 : st.advance.pos < st.advance.full.length := by
            simp only [LexState.isAtEnd, decide_eq_false_iff_not, not_le]
              at hend2
            omega
          obtain ⟨h1, h2, h3, h4, h5⟩ := ih _ st.advance.advance hI2 (by
            rw [advance_full, advance_pos st.advance hlt2, advance_full,
              advance_pos st hlt]
            rw [advance_full, advance_pos st hlt] at hlt2
            omega)
          refine ⟨?_, ?_, h3, ?_, h5⟩
          · rw [h1, advance_full, advance_full]
          · rw [h2, advance_diags, advance_diags]
          · calc st.pos ≤ st.advance.pos := advance_pos_le st
              _ ≤ st.advance.advance.pos := advance_pos_le st.advance
              _ ≤ _ := h4
        · rename_i hend2
          have hI1 := advance_inv st hI
          obtain ⟨h1, h2, h3, h4, h5⟩ := ih value st.advance hI1 (by
            rw [advance_full, advance_pos st hlt]; omega)
          refine ⟨h1.trans (advance_full st), h2.trans (advance_diags st),
            h3, le_trans (advance_pos_le st) h4, h5⟩
      · have hI1 := advance_inv st hI
        obtain ⟨h1, h2, h3, h4, h5⟩ := ih _ st.advance hI1 (by
          rw [advance_full, advance_pos st hlt]; omega)
        refine ⟨h1.trans (advance_full st), h2.trans (advance_diags st),
          h3, le_trans (advance_pos_le st) h4, h5⟩
    · rename_i hguard
      simp only [Bool.and_eq_true, Bool.not_eq_true', decide_eq_true_eq,
        not_and] at hguard
      refine ⟨rfl, rfl, hI, le_refl _, ?_⟩
      by_cases he : st.isAtEnd = true
      · exact Or.inl he
      · have := hguard (by simp [Bool.not_eq_true] at he ⊢; exact he)
        exact Or.inr (by simpa using this)

theorem readString_ok (fuel : Nat) (st : LexState) (hI : LexInv st)
    (hend : st.isAtEnd = false) (hF : st.full.length - st.pos ≤ fuel) :
    let r := readString fuel st
    r.2.full = st.full ∧ LexInv r.2 ∧ st.pos < r.2.pos ∧
    (r.2.diags = st.diags ∨
      (r.1 = none ∧
        r.2.diags = st.diags ++ [Diagnostic.mkError .e1001
          "Unterminated string literal" (Location.mk st.line st.col)] ∧
        r.2.pos = st.full.length)) := by
  have hlt : st.pos < st.full.length := by
    simp only [LexState.isAtEnd, decide_eq_false_iff_not, not_le] at hend
    exact hend
  have hI1 := advance_inv st hI
  obtain ⟨h1, h2, h3, h4, h5⟩ := readStringLoop_ok fuel "" st.advance hI1 (by
    rw [advance_full, advance_pos st hlt]; omega)
  have hfull : (readStringLoop fuel "" st.advance).2.full = st.full :=
    h1.trans (advance_full st)
  have hdiags : (readStringLoop fuel "" st.advance).2.diags = st.diags :=
    h2.trans (advance_diags st)
  have hpos : st.pos < (readStringLoop fuel "" st.advance).2.pos := by
    have := advance_pos st hlt
    omega
  rw [readString]
  dsimp only
  split
  · rename_i hae
    refine ⟨hfull, addError_inv _ h3 _ _ _ _, ?_, Or.inr ⟨rfl, ?_, ?_⟩⟩
    · rw [addError_pos]; exact hpos
    · rw [addError_diags, hdiags]
    · simp only [LexState.isAtEnd, decide_eq_true_eq] at hae
      rw [addError_pos]
      have hle := h3.1
      rw [hfull] at hae hle
      omega
  · refine ⟨(advance_full _).trans hfull, advance_inv _ h3, ?_, Or.inl ?_⟩
    · show st.pos < (readStringLoop fuel "" st.advance).2.advance.pos
      have := advance_pos_le (readStringLoop fuel "" st.advance).2
      omega
    · rw [advance_diags, hdiags]

theorem readNumberLoop_ok (fuel : Nat) :
    ∀ (value : String) (isFloat : Bool) (st : LexState), LexInv st →
    let r := readNumberLoop fuel value isFloat st
    r.2.2.full = st.full ∧ r.2.2.diags = st.diags ∧ LexInv r.2.2 ∧
    st.pos ≤ r.2.2.pos := by
  induction fuel with
  | zero =>
    intro value isFloat st hI
    rw [readNumberLoop]
    exact ⟨rfl, rfl, hI, le_refl _⟩
  | succ f ih =>
    intro value isFloat st hI
    rw [readNumberLoop]
    dsimp only
    split
    · split
      · split
        · exact ⟨rfl, rfl, hI, le_refl _⟩
        · obtain ⟨h1, h2, h3, h4⟩ := ih _ _ st.advance (advance_inv st hI)
          exact ⟨h1.trans (advance_full st), h2.trans (advance_diags st),
            h3, le_trans (advance_pos_le st) h4⟩
      · obtain ⟨h1, h2, h3, h4⟩ := ih _ _ st.advance (advance_inv st hI)
        exact ⟨h1.trans (advance_full st), h2.trans (advance_diags st),
          h3, le_trans (advance_pos_le st) h4⟩
    · exact ⟨rfl, rfl, hI, le_refl _⟩

theorem readNumberLoop_progress (f : Nat) (value : String) (st : LexState)
    (hI : LexInv st) (hend : st.isAtEnd = false)
    (hd : isDigitChar st.currentChar = true) :
    st.pos + 1 ≤ (readNumberLoop (f + 1) value false st).2.2.pos := by
  have hlt : st.pos < st.full.length := by
    simp only [LexState.isAtEnd, decide_eq_false_iff_not, not_le] at hend
    exact hend
  have hdot : ¬(st.currentChar = '.') := by
    intro heq
    rw [heq] at hd
    exact absurd hd (by decide)
  rw [readNumberLoop]
  rw [if_pos (by simp [hend, hd]), if_neg hdot]
  obtain ⟨_, _, _, h4⟩ := readNumberLoop_ok f (value.push st.currentChar)
    false st.advance (advance_inv st hI)
  rw [advance_pos st hlt] at h4
  exact h4

theorem readNumber_ok (fuel : Nat) (st : LexState) (hI : LexInv st)
    (hend : st.isAtEnd = false) (hd : isDigitChar st.currentChar = true)
    (hf : 1 ≤ fuel) :
    let r := readNumber fuel st
    r.2.full = st.full ∧ LexInv r.2 ∧ st.pos < r.2.pos ∧
    (r.2.diags = st.diags ∨ ∃ msg loc,
      r.2.diags = st.diags ++ [Diagnostic.mkError .e1002 msg loc]) := by
  obtain ⟨f, rfl⟩ : ∃ f, fuel = f + 1 := ⟨fuel - 1, by omega⟩
  obtain ⟨h1, h2, h3, h4⟩ := readNumberLoop_ok (f + 1) "" false st hI
  have hprog := readNumberLoop_progress f "" st hI hend hd
  rw [readNumber]
  dsimp only
  split
  · exact ⟨h1, h3,
      by show st.pos < (readNumberLoop (f + 1) "" false st).2.2.pos; omega,
      Or.inl h2⟩
  · split
    · exact ⟨h1, h3,
        by show st.pos < (readNumberLoop (f + 1) "" false st).2.2.pos; omega,
        Or.inl h2⟩
    · refine ⟨h1, addError_inv _ h3 _ _ _ _, ?_, Or.inr
        ⟨"Invalid integer '" ++ (readNumberLoop (f + 1) "" false st).1 ++ "'",
          Location.mk st.line st.col, ?_⟩⟩
      · rw [addError_pos]; omega
      · rw [addError_diags, h2]

theorem readIdentifierLoop_ok (fuel : Nat) :
    ∀ (value : String) (st : LexState), LexInv st →
    let r := readIdentifierLoop fuel value st
    r.2.full = st.full ∧ r.2.diags = st.diags ∧ LexInv r.2 ∧
    st.pos ≤ r.2.pos := by
  induction fuel with
  | zero =>
    intro value st hI
    rw [readIdentifierLoop]
    exact ⟨rfl, rfl, hI, le_refl _⟩
  | succ f ih =>
    intro value st hI
    rw [readIdentifierLoop]
    dsimp only
    split
    · obtain ⟨h1, h2, h3, h4⟩ := ih _ st.advance (advance_inv st hI)
      exact ⟨h1.trans (advance_full st), h2.trans (advance_diags st),
        h3, le_trans (advance_pos_le st) h4⟩
    · exact ⟨rfl, rfl, hI, le_refl _⟩

theorem readIdentifier_ok (fuel : Nat) (st : LexState) (hI : LexInv st)
    (hend : st.isAtEnd = false)
    (ha : (isAlphaChar st.currentChar || st.currentChar = '_') = true)
    (hf : 1 ≤ fuel) :
    let r := readIdentifier fuel st
    r.2.full = st.full ∧ LexInv r.2 ∧ st.pos < r.2.pos ∧
    r.2.diags = st.diags := by
  obtain ⟨f, rfl⟩ : ∃ f, fuel = f + 1 := ⟨fuel - 1, by omega⟩
  have hlt : st.pos < st.full.length := by
    simp only [LexState.isAtEnd, decide_eq_false_iff_not, not_le] at hend
    exact hend
  have hguard : (!st.isAtEnd &&
      (isAlnumChar st.currentChar || st.currentChar = '_')) = true := by
    simp only [Bool.or_eq_true, decide_eq_true_eq] at ha ⊢
    simp [hend, isAlnumChar]
    rcases ha with h | h
    · exact Or.inl (Or.inl h)
    · exact Or.inr h
  rw [readIdentifier]
  dsimp only
  rw [readIdentifierLoop]
  rw [if_pos hguard]
  obtain ⟨h1, h2, h3, h4⟩ :=
    readIdentifierLoop_ok f ("".push st.currentChar) st.advance
      (advance_inv st hI)
  refine ⟨h1.trans (advance_full st), h3, ?_, h2.trans (advance_diags st)⟩
  have := advance_pos st hlt
  omega

theorem ntok_advance1 (st : LexState) (hI : LexInv st) (tok : Token) :
    NextTokenOK st (some tok, st.advance) := by
  refine ⟨advance_full st, advance_inv st hI, advance_pos_le st, ?_,
    ⟨[], ?_, ?_, Or.inl rfl⟩⟩
  · intro h
    have hlt : st.pos < st.full.length := by
      simp only [LexState.isAtEnd, decide_eq_false_iff_not, not_le] at h
      exact h
    exact Or.inl (by rw [advance_pos st hlt]; omega)
  · rw [advance_diags]; simp
  · intro d hd; cases hd

theorem ntok_advance2 (st : LexState) (hI : LexInv st) (tok : Token) :
    NextTokenOK st (some tok, st.advance.advance) := by
  refine ⟨(advance_full st.advance).trans (advance_full st),
    advance_inv st.advance (advance_inv st hI), ?_, ?_,
    ⟨[], ?_, ?_, Or.inl rfl⟩⟩
  · exact le_trans (advance_pos_le st) (advance_pos_le st.advance)
  · intro h
    have hlt : st.pos < st.full.length := by
      simp only [LexState.isAtEnd, decide_eq_false_iff_not, not_le] at h
      exact h
    have h1 := advance_pos st hlt
    have h2 := advance_pos_le st.advance
    exact Or.inl (show st.pos < st.advance.advance.pos by omega)
  · rw [advance_diags, advance_diags]; simp
  · intro d hd; cases hd

theorem ntok_err (st st' : LexState) (hI : LexInv st') (msg : String)
    (l c : Nat) (hfull : st'.full = st.full) (hpos : st.pos ≤ st'.pos)
    (hdiags : st'.diags = st.diags) :
    NextTokenOK st (none, st'.addError .e1003 msg l c) := by
  refine ⟨(addError_full _ _ _ _ _).trans hfull, addError_inv _ hI _ _ _ _,
    ?_, fun _ => Or.inr rfl,
    ⟨[Diagnostic.mkError .e1003 msg (Location.mk l c)], ?_, ?_, Or.inl ?_⟩⟩
  · rw [addError_pos]; exact hpos
  · rw [addError_diags, hdiags]
  · intro d hd hcode
    simp only [List.mem_singleton] at hd
    rw [hd] at hcode
    exact absurd hcode (by simp [Diagnostic.mkError])
  · rfl

theorem opToken_ok (l c : Nat) (ch : Char) (st : LexState) (hI : LexInv st) :
    NextTokenOK st (opToken l c ch st) := by
  rw [opToken]
  dsimp only
  by_cases h1 : ch = '+'
  · rw [if_pos h1]
    exact ntok_advance1 st hI _
  rw [if_neg h1]
  by_cases h2 : ch = '*'
  · rw [if_pos h2]
    exact ntok_advance1 st hI _
  rw [if_neg h2]
  by_cases h3 : ch = '/'
  · rw [if_pos h3]
    exact ntok_advance1 st hI _
  rw [if_neg h3]
  by_cases h4 : ch = '%'
  · rw [if_pos h4]
    exact ntok_advance1 st hI _
  rw [if_neg h4]
  by_cases h5 : ch = '('
  · rw [if_pos h5]
    exact ntok_advance1 st hI _
  rw [if_neg h5]
  by_cases h6 : ch = ')'
  · rw [if_pos h6]
    exact ntok_advance1 st hI _
  rw [if_neg h6]
  by_cases h7 : ch = '\x7b'
  · rw [if_pos h7]
    exact ntok_advance1 st hI _
  rw [if_neg h7]
  by_cases h8 : ch = '\x7d'
  · rw [if_pos h8]
    exact ntok_advance1 st hI _
  rw [if_neg h8]
  by_cases h9 : ch = '['
  · rw [if_pos h9]
    exact ntok_advance1 st hI _
  rw [if_neg h9]
  by_cases h10 : ch = ']'
  · rw [if_pos h10]
    exact ntok_advance1 st hI _
  rw [if_neg h10]
  by_cases h11 : ch = ','
  · rw [if_pos h11]
    exact ntok_advance1 st hI _
  rw [if_neg h11]
  by_cases h12 : ch = ':'
  · rw [if_pos h12]
    exact ntok_advance1 st hI _
  rw [if_neg h12]
  by_cases h13 : ch = ';'
  · rw [if_pos h13]
    exact ntok_advance1 st hI _
  rw [if_neg h13]
  by_cases h14 : ch = '.'
  · rw [if_pos h14]
    exact ntok_advance1 st hI _
  rw [if_neg h14]
  by_cases h15 : ch = '-'
  · rw [if_pos h15]
    by_cases h16 : st.advance.currentChar = '>'
    · rw [if_pos h16]
      exact ntok_advance2 st hI _
    rw [if_neg h16]
    exact ntok_advance1 st hI _
  rw [if_neg h15]
  by_cases h17 : ch = '='
  · rw [if_pos h17]
    by_cases h18 : st.advance.currentChar = '='
    · rw [if_pos h18]
      exact ntok_advance2 st hI _
    rw [if_neg h18]
    by_cases h19 : st.advance.currentChar = '>'
    · rw [if_pos h19]
      exact ntok_advance2 st hI _
    rw [if_neg h19]
    exact ntok_advance1 st hI _
  rw [if_neg h17]
  by_cases h20 : ch = '!'
  · rw [if_pos h20]
    by_cases h21 : st.advance.currentChar = '='
    · rw [if_pos h21]
      exact ntok_advance2 st hI _
    rw [if_neg h21]
    exact ntok_advance1 st hI _
  rw [if_neg h20]
  by_cases h22 : ch = '<'
  · rw [if_pos h22]
    by_cases h23 : st.advance.currentChar = '='
    · rw [if_pos h23]
      exact ntok_advance2 st hI _
    rw [if_neg h23]
    exact ntok_advance1 st hI _
  rw [if_neg h22]
  by_cases h24 : ch = '>'
  · rw [if_pos h24]
    by_cases h25 : st.advance.currentChar = '='
    · rw [if_pos h25]
      exact ntok_advance2 st hI _
    rw [if_neg h25]
    exact ntok_advance1 st hI _
  rw [if_neg h24]
  by_cases h26 : ch = '&'
  · rw [if_pos h26]
    by_cases h27 : st.advance.currentChar = '&'
    · rw [if_pos h27]
      exact ntok_advance2 st hI _
    rw [if_neg h27]
    exact ntok_err st st.advance (advance_inv st hI) _ _ _
        (advance_full st) (advance_pos_le st) (advance_diags st)
  rw [if_neg h26]
  by_cases h28 : ch = '|'
  · rw [if_pos h28]
    by_cases h29 : st.advance.currentChar = '|'
    · rw [if_pos h29]
      exact ntok_advance2 st hI _
    rw [if_neg h29]
    exact ntok_err st st.advance (advance_inv st hI) _ _ _
        (advance_full st) (advance_pos_le st) (advance_diags st)
  rw [if_neg h28]
  exact ntok_err st st hI _ _ _ rfl (le_refl _) rfl

theorem nextToken_ok (fuel : Nat) : ∀ (st : LexState), LexInv st →
    st.full.length - st.pos < fuel →
    NextTokenOK st (nextToken fuel st) := by
  induction fuel with
  | zero => intro st hI hF; exact absurd hF (by omega)
  | succ f ih =>
    intro st hI hF
    rw [nextToken]
    split
    · -- line comment: skip to end of line, skip whitespace, read again
      rename_i hcmt
      simp only [Bool.and_eq_true, decide_eq_true_eq] at hcmt
      have hlt : st.pos < st.full.length := by
        by_contra h
        push_neg at h
        rw [currentChar_at_end st h] at hcmt
        exact absurd hcmt.1 (by decide)
      obtain ⟨s1f, s1d, s1I, s1p⟩ := skipComment_ok f st hI
      have s1prog : st.pos + 1 ≤ (skipComment f st).pos := by
        refine skipComment_progress f st hI (by omega) ?_ ?_
        · simp only [LexState.isAtEnd, decide_eq_false_iff_not, not_le]
          omega
        · rw [hcmt.1]; decide
      obtain ⟨s2f, s2d, s2I, s2p⟩ := skipWhitespace_ok f (skipComment f st) s1I
      have hflen : (skipWhitespace f (skipComment f st)).full.length =
          st.full.length := by rw [s2f, s1f]
      obtain ⟨A, B, C, D, new, hnew, hdok, hcount⟩ :=
        ih (skipWhitespace f (skipComment f st)) s2I (by rw [hflen]; omega)
      refine ⟨A.trans (s2f.trans s1f), B, by omega, fun _ => Or.inl (by omega),
        ⟨new, ?_, ?_, ?_⟩⟩
      · rw [hnew, s2d, s1d]
      · intro d hd
        have := hdok d hd
        rwa [s2f, s1f] at this
      · rcases hcount with h | ⟨h1c, h2c⟩
        · exact Or.inl h
        · rw [s2f, s1f] at h2c
          exact Or.inr ⟨h1c, h2c⟩
    · split
      · -- string literal
        rename_i hq
        have hlt : st.pos < st.full.length := by
          by_contra h
          push_neg at h
          rw [currentChar_at_end st h] at hq
          exact absurd hq (by decide)
        have hend : st.isAtEnd = false := by
          simp only [LexState.isAtEnd, decide_eq_false_iff_not, not_le]
          omega
        obtain ⟨A, B, C, D⟩ := readString_ok f st hI hend (by omega)
        rcases D with hsame | ⟨hnone, hdiags, hposlen⟩
        · exact ⟨A, B, by omega, fun _ => Or.inl C,
            ⟨[], by rw [hsame]; simp, fun d hd => absurd hd (by simp),
              Or.inl rfl⟩⟩
        · refine ⟨A, B, by omega, fun _ => Or.inl C,
            ⟨[Diagnostic.mkError .e1001 "Unterminated string literal"
              (Location.mk st.line st.col)], hdiags, ?_, Or.inr ⟨?_, hposlen⟩⟩⟩
          · intro d hd _
            simp only [List.mem_singleton] at hd
            refine ⟨st.pos, hlt, ?_, ?_⟩
            · rw [currentChar_get st hlt, hq]
            · rw [hd]
              have h1 : st.line = (lineColAt st.full st.pos).1 := by
                rw [← hI.2]
              have h2 : st.col = (lineColAt st.full st.pos).2 := by
                rw [← hI.2]
              simp [Diagnostic.mkError, h1, h2]
          · rfl
      · split
        · -- numeric literal
          rename_i hd
          have hlt : st.pos < st.full.length := by
            by_contra h
            push_neg at h
            rw [currentChar_at_end st h] at hd
            exact absurd hd (by decide)
          have hend : st.isAtEnd = false := by
            simp only [LexState.isAtEnd, decide_eq_false_iff_not, not_le]
            omega
          obtain ⟨A, B, C, D⟩ := readNumber_ok f st hI hend hd (by omega)
          rcases D with hsame | ⟨msg, loc, hdiags⟩
          · exact ⟨A, B, by omega, fun _ => Or.inl C,
              ⟨[], by rw [hsame]; simp, fun d hd => absurd hd (by simp),
                Or.inl rfl⟩⟩
          · refine ⟨A, B, by omega, fun _ => Or.inl C,
              ⟨[Diagnostic.mkError .e1002 msg loc], hdiags, ?_, Or.inl ?_⟩⟩
            · intro d hd hcode
              simp only [List.mem_singleton] at hd
              rw [hd] at hcode
              exact absurd hcode (by simp [Diagnostic.mkError])
            · rfl
        · split
          · -- identifier or keyword
            rename_i ha
            have hlt : st.pos < st.full.length := by
              by_contra h
              push_neg at h
              rw [currentChar_at_end st h] at ha
              exact absurd ha (by decide)
            have hend : st.isAtEnd = false := by
              simp only [LexState.isAtEnd, decide_eq_false_iff_not, not_le]
              omega
            obtain ⟨A, B, C, D⟩ := readIdentifier_ok f st hI hend ha (by omega)
            exact ⟨A, B, by omega, fun _ => Or.inl C,
              ⟨[], by rw [D]; simp, fun d hd => absurd hd (by simp), Or.inl rfl⟩⟩
          · -- single- and double-character operators, and the invalid-character
            -- fallback
            exact opToken_ok _ _ _ st hI

theorem tokenizeLoop_at_end (fuel : Nat) (st : LexState) (acc : List Token)
    (h : st.isAtEnd = true) : tokenizeLoop fuel st acc = (acc, st) := by
  cases fuel with
  | zero => rw [tokenizeLoop]
  | succ f => rw [tokenizeLoop, if_pos h]

theorem tokenizeLoop_ok (fuel : Nat) : ∀ (st : LexState) (acc : List Token),
    LexInv st → st.full.length - st.pos < fuel →
    let r := tokenizeLoop fuel st acc
    r.2.full = st.full ∧ LexInv r.2 ∧ r.2.pos = st.full.length ∧
    ∃ new, r.2.diags = st.diags ++ new ∧
      (∀ d ∈ new, DiagOK st.full d) ∧ countE1001 new ≤ 1 := by
  induction fuel with
  | zero => intro st acc hI hF; exact absurd hF (by omega)
  | succ f ih =>
    intro st acc hI hF
    rw [tokenizeLoop]
    by_cases hend : st.isAtEnd = true
    · rw [if_pos hend]
      have hpe : st.pos = st.full.length := by
        simp only [LexState.isAtEnd, decide_eq_true_eq] at hend
        have := hI.1
        omega
      exact ⟨rfl, hI, hpe, ⟨[], by simp, fun d hd => absurd hd (by simp),
        by simp [countE1001]⟩⟩
    · rw [if_neg hend]
      dsimp only
      have hlt : st.pos < st.full.length := by
        simp only [LexState.isAtEnd, decide_eq_true_eq, not_le] at hend
        have := hI.1
        omega
      obtain ⟨swf, swd, swI, swp⟩ := skipWhitespace_ok (f+1) st hI
      by_cases hend2 : (skipWhitespace (f+1) st).isAtEnd = true
      · rw [if_pos hend2]
        have hpe : (skipWhitespace (f+1) st).pos = st.full.length := by
          simp only [LexState.isAtEnd, decide_eq_true_eq] at hend2
          have := swI.1
          rw [swf] at hend2 this
          omega
        exact ⟨swf, swI, hpe, ⟨[], by rw [swd]; simp,
          fun d hd => absurd hd (by simp), by simp [countE1001]⟩⟩
      · rw [if_neg hend2]
        have hok := nextToken_ok (f+1) (skipWhitespace (f+1) st) swI (by
          rw [swf]; omega)
        rcases hnt : nextToken (f+1) (skipWhitespace (f+1) st) with ⟨tokOpt, st'⟩
        rw [hnt] at hok
        obtain ⟨A, B, C, D, new1, hnew1, hdok1, hcount1⟩ := hok
        dsimp only at A B C D hnew1 hdok1 hcount1
        rw [swf] at A
        rw [swd] at hnew1
        have hdok1' : ∀ d ∈ new1, DiagOK st.full d := by
          intro d hd
          have := hdok1 d hd
          rwa [swf] at this
        cases tokOpt with
        | some tok =>
          dsimp only
          have hprog : (skipWhitespace (f+1) st).pos < st'.pos := by
            have hend2f : (skipWhitespace (f+1) st).isAtEnd = false := by
              simpa using hend2
            rcases D hend2f with h | h
            · exact h
            · cases h
          rcases hcount1 with h0 | ⟨h1c, h2c⟩
          · obtain ⟨A2, B2, P2, new2, hnew2, hdok2, hcount2⟩ :=
              ih st' (acc ++ [tok]) B (by rw [A]; omega)
            refine ⟨A2.trans A, B2, by rw [P2, A], ⟨new1 ++ new2, ?_, ?_, ?_⟩⟩
            · rw [hnew2, hnew1, List.append_assoc]
            · intro d hd
              rcases List.mem_append.mp hd with h | h
              · exact hdok1' d h
              · have := hdok2 d h
                rwa [A] at this
            · simp only [countE1001, List.countP_append]
              simp only [countE1001] at h0 hcount2
              omega
          · rw [swf] at h2c
            have hae : st'.isAtEnd = true := by
              simp only [LexState.isAtEnd, decide_eq_true_eq]
              rw [A]
              omega
            rw [tokenizeLoop_at_end f st' (acc ++ [tok]) hae]
            exact ⟨A, B, h2c, ⟨new1, hnew1, hdok1', by omega⟩⟩
        | none =>
          dsimp only
          by_cases hp : st'.pos < st.full.length
          · have hadv : st'.advance.pos = st'.pos + 1 :=
              advance_pos st' (by rw [A]; exact hp)
            obtain ⟨A2, B2, P2, new2, hnew2, hdok2, hcount2⟩ :=
              ih st'.advance acc (advance_inv st' B) (by
                rw [advance_full, A, hadv]
                have := swp
                have := C
                omega)
            refine ⟨A2.trans ((advance_full st').trans A), B2,
              by rw [P2, advance_full, A], ⟨new1 ++ new2, ?_, ?_, ?_⟩⟩
            · rw [hnew2, advance_diags, hnew1, List.append_assoc]
            · intro d hd
              rcases List.mem_append.mp hd with h | h
              · exact hdok1' d h
              · have := hdok2 d h
                rwa [advance_full, A] at this
            · simp only [countE1001, List.countP_append]
              simp only [countE1001] at hcount1 hcount2
              rcases hcount1 with h0 | ⟨h1c, h2c⟩
              · omega
              · rw [swf] at h2c
                omega
          · have hple : st'.pos = st.full.length := by
              have := B.1
              rw [A] at this
              omega
            have hae : st'.isAtEnd = true := by
              simp only [LexState.isAtEnd, decide_eq_true_eq]
              rw [A, hple]
            rw [advance_at_end st' (by rw [A]; omega)]
            rw [tokenizeLoop_at_end f st' acc hae]
            refine ⟨A, B, hple, ⟨new1, hnew1, hdok1', ?_⟩⟩
            rcases hcount1 with h0 | ⟨h1c, h2c⟩ <;> omega

/-- C9: `Lexer::tokenize` is error-tolerant around unterminated strings.
For every input, lexing runs to the end of the input and appends the
terminating EOF token (at the final line/column), the diagnostics contain
at most one E1001, and any recorded E1001 is unique and located at the
line and column of a `"` character of the input — the opening quote whose
string ran off the end. -/
theorem c9_unterminated_string_tolerance (input : String) :
    (tokenizeRaw input).2.full = input.toList
    ∧ (tokenizeRaw input).2.pos = input.toList.length
    ∧ (tokenizeRaw input).1.getLast? = some (Token.mk .eof
        (tokenizeRaw input).2.line (tokenizeRaw input).2.col)
    ∧ countE1001 (tokenizeRaw input).2.diags ≤ 1
    ∧ (∀ d ∈ (tokenizeRaw input).2.diags, d.code = .e1001 →
        countE1001 (tokenizeRaw input).2.diags = 1 ∧
        ∃ p, p < input.toList.length ∧ input.toList.get? p = some '"' ∧
          d.location = Location.mk (lineColAt input.toList p).1
            (lineColAt input.toList p).2) := by
  have hI0 : LexInv (lexInit input) := ⟨Nat.zero_le _, rfl⟩
  obtain ⟨A, B, P, new, hnew, hdok, hcnt⟩ :=
    tokenizeLoop_ok ((lexInit input).full.length + 1) (lexInit input) []
      hI0 (by omega)
  have hfull0 : (lexInit input).full = input.toList := rfl
  have hdia0 : (lexInit input).diags = [] := rfl
  rw [hfull0] at A P
  rw [hdia0] at hnew
  simp only [List.nil_append] at hnew
  rw [tokenizeRaw]
  dsimp only
  refine ⟨A, P, List.getLast?_concat _, ?_, ?_⟩
  · rw [hnew]
    exact hcnt
  · intro d hd hcode
    rw [hnew] at hd
    have hok := hdok d hd hcode
    rw [hfull0] at hok
    refine ⟨?_, hok⟩
    rw [hnew]
    have hpos : 0 < countE1001 new := by
      simp only [countE1001]
      exact List.countP_pos.mpr ⟨d, hd, by simp [hcode]⟩
    omega

/-- C9 witness: on `text "hello` the lexer records exactly one E1001, at
line 1 column 6 — the opening quote, which is character index 5 of the
input — and still reaches the end of the 11-character input, appending
the EOF token at 1:12. -/
theorem c9_unterminated_string_tolerance_witness :
    (tokenizeRaw "text \"hello").2.diags =
      [Diagnostic.mkError .e1001 "Unterminated string literal"
        (Location.mk 1 6)]
    ∧ (countE1001 (tokenizeRaw "text \"hello").2.diags = 1 ∧
        ∃ p, p < "text \"hello".toList.length ∧
          "text \"hello".toList.get? p = some '"' ∧
          (Diagnostic.mkError .e1001 "Unterminated string literal"
            (Location.mk 1 6)).location =
            Location.mk (lineColAt "text \"hello".toList p).1
              (lineColAt "text \"hello".toList p).2)
    ∧ (tokenizeRaw "text \"hello").2.pos = "text \"hello".toList.length
    ∧ (tokenizeRaw "text \"hello").1.getLast? = some (Token.mk .eof 1 12) := by
  refine ⟨rfl, ?_, ?_, ?_⟩
  · exact (c9_unterminated_string_tolerance "text \"hello").2.2.2.2
      (Diagnostic.mkError .e1001 "Unterminated string literal"
        (Location.mk 1 6))
      (by rw [show (tokenizeRaw "text \"hello").2.diags =
            [Diagnostic.mkError .e1001 "Unterminated string literal"
              (Location.mk 1 6)] from rfl]
          exact List.mem_singleton_self _)
      rfl
  · exact (c9_unterminated_string_tolerance "text \"hello").2.1
  · exact (c9_unterminated_string_tolerance "text \"hello").2.2.1

end WT
